import Mathlib

/-!
Verification development for the constrained-dynamics core of the
RBDL fork (src/src/Constraints.cc).

The numerical code is shallowly embedded over the exact field ℚ:
machine floating point is idealised as exact arithmetic, so the
source comparisons "equal up to solver tolerance" become exact
equalities, and tolerance thresholds become parameters.  The dense
decomposition routines of the external math library
(partialPivLu().solve, colPivHouseholderQr().solve,
householderQr().solve, llt().solve) are out-of-scope collaborators
("standard decomposition routines" per the spec); each is modelled by
the exact linear solve `linSolve`, which agrees with `A⁻¹ *ᵥ b`
whenever `A` is invertible and is computable over ℚ.
-/

namespace RigidBodyDynamics

open Matrix

/-- Exact linear solve via Cramer's rule: equals `A⁻¹ *ᵥ b` when `A` is
invertible, and is computable over ℚ.  Models the contract of the dense
factorization-and-solve routines of the external math library. -/
def linSolve {α : Type} [Fintype α] [DecidableEq α]
    (A : Matrix α α ℚ) (b : α → ℚ) : α → ℚ :=
  (A.det)⁻¹ • (A.adjugate *ᵥ b)

theorem linSolve_mulVec {α : Type} [Fintype α] [DecidableEq α]
    {A : Matrix α α ℚ} (hA : A.det ≠ 0) (b : α → ℚ) :
    A *ᵥ (linSolve A b) = b := by
  unfold linSolve
  rw [mulVec_smul_assoc, mulVec_mulVec, Matrix.mul_adjugate, smul_mulVec_assoc,
    smul_smul, inv_mul_cancel₀ hA, one_smul, one_mulVec]

theorem linSolve_unique {α : Type} [Fintype α] [DecidableEq α]
    {A : Matrix α α ℚ} {x b : α → ℚ} (hA : A.det ≠ 0)
    (hx : A *ᵥ x = b) : linSolve A b = x := by
  unfold linSolve
  rw [← hx, mulVec_mulVec, Matrix.adjugate_mul, smul_mulVec_assoc, smul_smul,
    inv_mul_cancel₀ hA, one_smul, one_mulVec]

/-- Run-time selector for the dense linear solver, from the
`LinearSolver` enumeration of the public headers (the three values the
spec names), with `LinearSolverOther` standing for any enumeration
value outside that set. -/
inductive LinearSolver : Type
  | LinearSolverPartialPivLU
  | LinearSolverColPivHouseholderQR
  | LinearSolverHouseholderQR
  | LinearSolverOther (code : ℕ)
deriving DecidableEq, Repr

/-- Fatal outcomes of the constrained-dynamics core: the `default:`
branches of the solver-selector switches (`assert(0)` / `abort()`), and
the programming-contract assertions of the registration/bind lifecycle. -/
inductive RbdlError : Type
  | invalidLinearSolver
  | contractViolation
deriving DecidableEq, Repr

/-- Whether a selector value is one of the three recognised dense
solvers. -/
def LinearSolver.isValid : LinearSolver → Bool
  | .LinearSolverPartialPivLU => true
  | .LinearSolverColPivHouseholderQR => true
  | .LinearSolverHouseholderQR => true
  | .LinearSolverOther _ => false

/-- The solver-selector `switch` shared verbatim by
`SolveConstrainedSystemDirect`, `SolveConstrainedSystemNullSpace`,
`ForwardDynamicsContactsKokkevis` and `SolveLinearSystem` in the
source: each recognised case performs a dense factor-and-solve
(idealised as `linSolve`; under the reduced backend the LU case falls
back to Householder QR, which the idealisation makes identical), and
the `default:` case is fatal. -/
def dispatchSolve {α : Type} [Fintype α] [DecidableEq α]
    (ls : LinearSolver) (A : Matrix α α ℚ) (b : α → ℚ) :
    Except RbdlError (α → ℚ) :=
  match ls with
  | .LinearSolverPartialPivLU => .ok (linSolve A b)
  | .LinearSolverColPivHouseholderQR => .ok (linSolve A b)
  | .LinearSolverHouseholderQR => .ok (linSolve A b)
  | .LinearSolverOther _ => .error .invalidLinearSolver

theorem dispatchSolve_valid {α : Type} [Fintype α] [DecidableEq α]
    {ls : LinearSolver} (h : ls.isValid = true)
    (A : Matrix α α ℚ) (b : α → ℚ) :
    dispatchSolve ls A b = .ok (linSolve A b) := by
  cases ls <;> simp_all [dispatchSolve, LinearSolver.isValid]

theorem dispatchSolve_invalid {α : Type} [Fintype α] [DecidableEq α]
    {ls : LinearSolver} (h : ls.isValid = false)
    (A : Matrix α α ℚ) (b : α → ℚ) :
    dispatchSolve ls A b = .error .invalidLinearSolver := by
  cases ls <;> simp_all [dispatchSolve, LinearSolver.isValid]

/-- The augmented KKT matrix `[[H, Gᵀ], [G, 0]]` assembled by
`SolveConstrainedSystemDirect` (Constraints.cc:574-579).  The first
block of indices is the `n` generalized coordinates, the second the
`m` constraint rows. -/
def kktMatrix {n m : ℕ} (H : Matrix (Fin n) (Fin n) ℚ)
    (G : Matrix (Fin m) (Fin n) ℚ) :
    Matrix (Fin n ⊕ Fin m) (Fin n ⊕ Fin m) ℚ :=
  Matrix.fromBlocks H G.transpose G 0

/-- The right-hand side `[c; gamma]` assembled by
`SolveConstrainedSystemDirect` (Constraints.cc:582-583). -/
def kktRhs {n m : ℕ} (c : Fin n → ℚ) (gamma : Fin m → ℚ) :
    Fin n ⊕ Fin m → ℚ :=
  Sum.elim c gamma

/-- Embedding of `SolveConstrainedSystemDirect` (Constraints.cc:563-610):
assemble `A = [[H, Gᵀ],[G, 0]]` and `b = [c; gamma]`, then solve
`A·x = b` with the selected dense factorization; an unrecognised
selector is fatal.  Returns the stacked solution `x`. -/
def SolveConstrainedSystemDirect {n m : ℕ}
    (H : Matrix (Fin n) (Fin n) ℚ) (G : Matrix (Fin m) (Fin n) ℚ)
    (c : Fin n → ℚ) (gamma : Fin m → ℚ) (ls : LinearSolver) :
    Except RbdlError (Fin n ⊕ Fin m → ℚ) :=
  dispatchSolve ls (kktMatrix H G) (kktRhs c gamma)

/-- Embedding of `ForwardDynamicsConstraintsDirect`
(Constraints.cc:990-1014) after system assembly: the shared
`CalcConstrainedSystemVariables` step produces `H`, `G`,
`c = Tau - C` and `gamma`, and is a pure function of
(model, Q, QDot, Tau, f_ext), so the entry point is embedded over the
assembled system.  It solves the augmented system, copies the first
`n` entries of `x` into `QDDot` and the negated trailing `m` entries
into the registry's `force` array. -/
def ForwardDynamicsConstraintsDirect {n m : ℕ}
    (H : Matrix (Fin n) (Fin n) ℚ) (G : Matrix (Fin m) (Fin n) ℚ)
    (c : Fin n → ℚ) (gamma : Fin m → ℚ) (ls : LinearSolver) :
    Except RbdlError ((Fin n → ℚ) × (Fin m → ℚ)) :=
  (SolveConstrainedSystemDirect H G c gamma ls).map fun x =>
    (fun i => x (Sum.inl i), fun j => -(x (Sum.inr j)))

/-- Embedding of `ComputeConstraintImpulsesDirect`
(Constraints.cc:1066-1093): solves the velocity-jump system with
`c = H·QDotMinus` and `gamma = v_plus`, copies the first `n` entries of
`x` into `QDotPlus`, and stores the trailing `m` entries of `x` into
the registry's `impulse` array WITHOUT negation (line 1090). -/
def ComputeConstraintImpulsesDirect {n m : ℕ}
    (H : Matrix (Fin n) (Fin n) ℚ) (G : Matrix (Fin m) (Fin n) ℚ)
    (QDotMinus : Fin n → ℚ) (v_plus : Fin m → ℚ) (ls : LinearSolver) :
    Except RbdlError ((Fin n → ℚ) × (Fin m → ℚ)) :=
  (SolveConstrainedSystemDirect H G (H *ᵥ QDotMinus) v_plus ls).map fun x =>
    (fun i => x (Sum.inl i), fun j => x (Sum.inr j))

/-- Columnwise linear solve: `linSolveCols A B` solves `A·Y = B` one
column at a time, as the `for` loop over the columns of `Y` does with
`SparseSolveLTx` in `SolveConstrainedSystemRangeSpaceSparse`
(Constraints.cc:630-634). -/
def linSolveCols {α β : Type} [Fintype α] [DecidableEq α]
    (A : Matrix α α ℚ) (B : Matrix α β ℚ) : Matrix α β ℚ :=
  Matrix.of fun i j => linSolve A (fun k => B k j) i

/-- Embedding of `SolveConstrainedSystemRangeSpaceSparse`
(Constraints.cc:614-648).  The sparse factorization
`SparseFactorizeLTL` (an external collaborator) overwrites `H` with a
factor `L` such that `H = Lᵀ·L`; the embedding therefore takes the
factor `L` as input.  `SparseSolveLTx` solves `Lᵀ·w = rhs` and
`SparseSolveLx` solves `L·w = rhs`; both are exact triangular solves,
modelled by `linSolve`.  Then `Y = L⁻ᵀ·Gᵀ` columnwise, `z = L⁻ᵀ·c`,
`K = Yᵀ·Y`, `a = gamma - Yᵀ·z`, `lambda` solves `K·lambda = a`
(Cholesky, exact), and `qddot` is recovered by the two triangular
solves applied to `c + Gᵀ·lambda`. -/
def SolveConstrainedSystemRangeSpaceSparse {n m : ℕ}
    (L : Matrix (Fin n) (Fin n) ℚ) (G : Matrix (Fin m) (Fin n) ℚ)
    (c : Fin n → ℚ) (gamma : Fin m → ℚ) :
    (Fin n → ℚ) × (Fin m → ℚ) :=
  let Y := linSolveCols L.transpose G.transpose
  let z := linSolve L.transpose c
  let K := Y.transpose * Y
  let a := gamma - Y.transpose *ᵥ z
  let lambda := linSolve K a
  let qddot := linSolve L (linSolve L.transpose (c + G.transpose *ᵥ lambda))
  (qddot, lambda)

/-- Embedding of `ForwardDynamicsConstraintsRangeSpaceSparse`
(Constraints.cc:1018-1031) after system assembly: identical to the
solver, with `c = Tau - C`; the solver writes `qddot` to the caller's
output and `lambda` into the registry's `force` array unchanged. -/
def ForwardDynamicsConstraintsRangeSpaceSparse {n m : ℕ}
    (L : Matrix (Fin n) (Fin n) ℚ) (G : Matrix (Fin m) (Fin n) ℚ)
    (c : Fin n → ℚ) (gamma : Fin m → ℚ) :
    (Fin n → ℚ) × (Fin m → ℚ) :=
  SolveConstrainedSystemRangeSpaceSparse L G c gamma

/-- Embedding of `SolveConstrainedSystemNullSpace`
(Constraints.cc:652-710).  `Y` and `Z` are the range/null split of the
orthogonal factor of the Householder QR of `Gᵀ`, computed by the
calling entry point and passed in, exactly as in the source.  The
`m×m` system `(G·Y)·qddot_y = gamma` and the trailing recovery
`(G·Y)·lambda = Yᵀ·(H·qddot - c)` both go through the configured dense
solver (fatal on an unrecognised selector); the `(n-m)×(n-m)` system
for `qddot_z` uses Cholesky (exact). -/
def SolveConstrainedSystemNullSpace {n m k : ℕ}
    (H : Matrix (Fin n) (Fin n) ℚ) (G : Matrix (Fin m) (Fin n) ℚ)
    (c : Fin n → ℚ) (gamma : Fin m → ℚ)
    (Y : Matrix (Fin n) (Fin m) ℚ) (Z : Matrix (Fin n) (Fin k) ℚ)
    (ls : LinearSolver) :
    Except RbdlError ((Fin n → ℚ) × (Fin m → ℚ)) := do
  let qddot_y ← dispatchSolve ls (G * Y) gamma
  let qddot_z := linSolve (Z.transpose * H * Z)
    (Z.transpose *ᵥ (c - H *ᵥ (Y *ᵥ qddot_y)))
  let qddot := Y *ᵥ qddot_y + Z *ᵥ qddot_z
  let lambda ← dispatchSolve ls (G * Y) (Y.transpose *ᵥ (H *ᵥ qddot - c))
  return (qddot, lambda)

/-- Embedding of `ForwardDynamicsConstraintsNullSpace`
(Constraints.cc:1035-1062) after system assembly.  The entry point
computes the Householder QR of `Gᵀ` and splits its orthogonal factor
into `Y` (first `m` columns) and `Z` (remaining `n-m` columns); QR
with square roots is not representable over ℚ, so the embedding takes
the split `(Y, Z)` as input — theorems hypothesise (and concrete
instances exhibit) the defining properties of that split.  The solver
writes `qddot` to the caller's output and `lambda` into the registry's
`force` array unchanged. -/
def ForwardDynamicsConstraintsNullSpace {n m k : ℕ}
    (H : Matrix (Fin n) (Fin n) ℚ) (G : Matrix (Fin m) (Fin n) ℚ)
    (c : Fin n → ℚ) (gamma : Fin m → ℚ)
    (Y : Matrix (Fin n) (Fin m) ℚ) (Z : Matrix (Fin n) (Fin k) ℚ)
    (ls : LinearSolver) :
    Except RbdlError ((Fin n → ℚ) × (Fin m → ℚ)) :=
  SolveConstrainedSystemNullSpace H G c gamma Y Z ls

/-- Embedding of the free function `SolveLinearSystem`
(Constraints.cc:1669-1703), used by the assembly-projection routines:
dimension mismatches are impossible in the typed embedding, and the
selector switch is the shared dispatch (fatal default). -/
def SolveLinearSystem {α : Type} [Fintype α] [DecidableEq α]
    (A : Matrix α α ℚ) (b : α → ℚ) (ls : LinearSolver) :
    Except RbdlError (α → ℚ) :=
  dispatchSolve ls A b

/-!  Well-posedness of the augmented KKT system. -/

/-- A matrix `G` has full row rank iff `Gᵀ` has trivial kernel. -/
def FullRowRank {n m : ℕ} (G : Matrix (Fin m) (Fin n) ℚ) : Prop :=
  ∀ v : Fin m → ℚ, G.transpose *ᵥ v = 0 → v = 0

theorem kkt_det_ne_zero {n m : ℕ}
    {H : Matrix (Fin n) (Fin n) ℚ} {G : Matrix (Fin m) (Fin n) ℚ}
    {L : Matrix (Fin n) (Fin n) ℚ}
    (hH : H = L.transpose * L) (hL : L.det ≠ 0)
    (hG : FullRowRank G) :
    (kktMatrix H G).det ≠ 0 := by
  intro hdet
  obtain ⟨w, hw0, hw⟩ := (Matrix.exists_mulVec_eq_zero_iff).2 hdet
  unfold kktMatrix at hw
  rw [Matrix.fromBlocks_mulVec] at hw
  set u : Fin n → ℚ := w ∘ Sum.inl with hu
  set v : Fin m → ℚ := w ∘ Sum.inr with hv
  have h1 : H *ᵥ u + G.transpose *ᵥ v = 0 := by
    funext i; exact congrFun hw (Sum.inl i)
  have h2 : G *ᵥ u + (0 : Matrix (Fin m) (Fin m) ℚ) *ᵥ v = 0 := by
    funext j; exact congrFun hw (Sum.inr j)
  rw [Matrix.zero_mulVec, add_zero] at h2
  -- dot the first equation with u
  have hdot : u ⬝ᵥ (H *ᵥ u) + u ⬝ᵥ (G.transpose *ᵥ v) = 0 := by
    rw [← dotProduct_add, h1, dotProduct_zero]
  have hGu : u ⬝ᵥ (G.transpose *ᵥ v) = (G *ᵥ u) ⬝ᵥ v := by
    rw [dotProduct_mulVec, vecMul_transpose]
  have hLu : u ⬝ᵥ (H *ᵥ u) = (L *ᵥ u) ⬝ᵥ (L *ᵥ u) := by
    rw [hH, ← mulVec_mulVec, dotProduct_mulVec, vecMul_transpose]
  rw [hGu, h2, zero_dotProduct, add_zero, hLu] at hdot
  have hLu0 : L *ᵥ u = 0 := dotProduct_self_eq_zero.1 hdot
  have hu0 : u = 0 := by
    have heq : L *ᵥ u = L *ᵥ 0 := by rw [hLu0, mulVec_zero]
    have hunit : IsUnit L := (Matrix.isUnit_iff_isUnit_det L).2 (isUnit_iff_ne_zero.2 hL)
    exact Matrix.mulVec_injective_iff_isUnit.2 hunit heq
  rw [hu0, mulVec_zero, zero_add] at h1
  have hv0 : v = 0 := hG v h1
  apply hw0
  funext x
  cases x with
  | inl i => exact congrFun hu0 i
  | inr j => exact congrFun hv0 j

theorem kkt_solution_unique {n m : ℕ}
    {H : Matrix (Fin n) (Fin n) ℚ} {G : Matrix (Fin m) (Fin n) ℚ}
    {c : Fin n → ℚ} {gamma : Fin m → ℚ}
    (hdet : (kktMatrix H G).det ≠ 0)
    {q₁ q₂ : Fin n → ℚ} {l₁ l₂ : Fin m → ℚ}
    (h₁ : H *ᵥ q₁ - G.transpose *ᵥ l₁ = c ∧ G *ᵥ q₁ = gamma)
    (h₂ : H *ᵥ q₂ - G.transpose *ᵥ l₂ = c ∧ G *ᵥ q₂ = gamma) :
    q₁ = q₂ ∧ l₁ = l₂ := by
  have key : ∀ (q : Fin n → ℚ) (l : Fin m → ℚ),
      H *ᵥ q - G.transpose *ᵥ l = c → G *ᵥ q = gamma →
      (kktMatrix H G) *ᵥ (Sum.elim q (-l)) = kktRhs c gamma := by
    intro q l hq hg
    unfold kktMatrix kktRhs
    rw [Matrix.fromBlocks_mulVec]
    have hl : (Sum.elim q (-l)) ∘ Sum.inl = q := rfl
    have hr : (Sum.elim q (-l)) ∘ Sum.inr = -l := rfl
    rw [hl, hr, mulVec_neg, ← sub_eq_add_neg, hq, Matrix.zero_mulVec, add_zero, hg]
  have e₁ := linSolve_unique hdet (key q₁ l₁ h₁.1 h₁.2)
  have e₂ := linSolve_unique hdet (key q₂ l₂ h₂.1 h₂.2)
  have heq := e₁.symm.trans e₂
  constructor
  · funext i; exact congrFun heq (Sum.inl i)
  · funext j
    have hj : -(l₁ j) = -(l₂ j) := congrFun heq (Sum.inr j)
    exact neg_injective hj

theorem mul_entry_mulVec_col {α β : Type} [Fintype α] [DecidableEq α]
    (M : Matrix α α ℚ) (N : Matrix α β ℚ) (i : α) (j : β) :
    (M * N) i j = (M *ᵥ (fun k => N k j)) i := by
  simp [Matrix.mul_apply, Matrix.mulVec, Matrix.dotProduct]

theorem linSolveCols_spec {α β : Type} [Fintype α] [DecidableEq α]
    {A : Matrix α α ℚ} (hA : A.det ≠ 0) (B : Matrix α β ℚ) :
    A * linSolveCols A B = B := by
  ext i j
  rw [mul_entry_mulVec_col]
  have hcol : (fun k => linSolveCols A B k j) = linSolve A (fun k => B k j) := rfl
  rw [hcol, linSolve_mulVec hA]

/-- The direct solver's output solves the augmented system, hence
satisfies the coupled equations `H·qddot - Gᵀ·λ = c`, `G·qddot = gamma`
with `λ` the stored (negated) force. -/
theorem forwardDynamicsConstraintsDirect_kkt {n m : ℕ}
    {H : Matrix (Fin n) (Fin n) ℚ} {G : Matrix (Fin m) (Fin n) ℚ}
    {c : Fin n → ℚ} {gamma : Fin m → ℚ} {ls : LinearSolver}
    (hdet : (kktMatrix H G).det ≠ 0) (hls : ls.isValid = true) :
    ∃ qddot lambda,
      ForwardDynamicsConstraintsDirect H G c gamma ls = .ok (qddot, lambda) ∧
      H *ᵥ qddot - G.transpose *ᵥ lambda = c ∧ G *ᵥ qddot = gamma := by
  set x := linSolve (kktMatrix H G) (kktRhs c gamma) with hx
  have hsolve : (kktMatrix H G) *ᵥ x = kktRhs c gamma := linSolve_mulVec hdet _
  unfold kktMatrix at hsolve
  rw [Matrix.fromBlocks_mulVec] at hsolve
  refine ⟨fun i => x (Sum.inl i), fun j => -(x (Sum.inr j)), ?_, ?_, ?_⟩
  · unfold ForwardDynamicsConstraintsDirect SolveConstrainedSystemDirect
    rw [dispatchSolve_valid hls]
    rfl
  · have h1 : H *ᵥ (x ∘ Sum.inl) + G.transpose *ᵥ (x ∘ Sum.inr) = c := by
      funext i; exact congrFun hsolve (Sum.inl i)
    have hneg : (fun j => -(x (Sum.inr j))) = -(x ∘ Sum.inr) := rfl
    rw [hneg, mulVec_neg, sub_neg_eq_add]
    exact h1
  · have h2 : G *ᵥ (x ∘ Sum.inl) + (0 : Matrix (Fin m) (Fin m) ℚ) *ᵥ (x ∘ Sum.inr)
        = gamma := by
      funext j; exact congrFun hsolve (Sum.inr j)
    rwa [Matrix.zero_mulVec, add_zero] at h2

/-- Invertibility of the reduced matrix `K = Yᵀ·Y = G·H⁻¹·Gᵀ` of the
range-space solver, from positive definiteness of `H` and full row
rank of `G`. -/
theorem rangeSpace_K_det_ne_zero {n m : ℕ}
    {L : Matrix (Fin n) (Fin n) ℚ} {G : Matrix (Fin m) (Fin n) ℚ}
    (hL : L.det ≠ 0) (hG : FullRowRank G) :
    ((linSolveCols L.transpose G.transpose).transpose
      * linSolveCols L.transpose G.transpose).det ≠ 0 := by
  set Y := linSolveCols L.transpose G.transpose with hY
  have hLT : L.transpose.det ≠ 0 := by rwa [Matrix.det_transpose]
  have hLY : L.transpose * Y = G.transpose := linSolveCols_spec hLT _
  intro hdet
  obtain ⟨w, hw0, hw⟩ := (Matrix.exists_mulVec_eq_zero_iff).2 hdet
  have hdot : w ⬝ᵥ ((Y.transpose * Y) *ᵥ w) = 0 := by rw [hw, dotProduct_zero]
  have hsq : w ⬝ᵥ ((Y.transpose * Y) *ᵥ w) = (Y *ᵥ w) ⬝ᵥ (Y *ᵥ w) := by
    rw [← mulVec_mulVec, dotProduct_mulVec, vecMul_transpose]
  rw [hsq] at hdot
  have hYw : Y *ᵥ w = 0 := dotProduct_self_eq_zero.1 hdot
  have hGw : G.transpose *ᵥ w = 0 := by
    rw [← hLY, ← mulVec_mulVec, hYw, mulVec_zero]
  exact hw0 (hG w hGw)

/-- The range-space solver's output satisfies the same coupled
equations `H·qddot - Gᵀ·λ = c`, `G·qddot = gamma`. -/
theorem solveConstrainedSystemRangeSpaceSparse_kkt {n m : ℕ}
    {H L : Matrix (Fin n) (Fin n) ℚ} {G : Matrix (Fin m) (Fin n) ℚ}
    {c : Fin n → ℚ} {gamma : Fin m → ℚ}
    (hH : H = L.transpose * L) (hL : L.det ≠ 0) (hG : FullRowRank G) :
    H *ᵥ (SolveConstrainedSystemRangeSpaceSparse L G c gamma).1
      - G.transpose *ᵥ (SolveConstrainedSystemRangeSpaceSparse L G c gamma).2 = c ∧
    G *ᵥ (SolveConstrainedSystemRangeSpaceSparse L G c gamma).1 = gamma := by
  have hLT : L.transpose.det ≠ 0 := by rwa [Matrix.det_transpose]
  set Y := linSolveCols L.transpose G.transpose with hYdef
  have hLY : L.transpose * Y = G.transpose := linSolveCols_spec hLT _
  have hKdet := rangeSpace_K_det_ne_zero hL hG
  set z := linSolve L.transpose c with hzdef
  set K := Y.transpose * Y with hKdef
  set a := gamma - Y.transpose *ᵥ z with hadef
  set lambda := linSolve K a with hldef
  set w := linSolve L.transpose (c + G.transpose *ᵥ lambda) with hwdef
  set qddot := linSolve L w with hqdef
  have houtput : SolveConstrainedSystemRangeSpaceSparse L G c gamma
      = (qddot, lambda) := rfl
  rw [houtput]
  have hLq : L *ᵥ qddot = w := linSolve_mulVec hL _
  have hLw : L.transpose *ᵥ w = c + G.transpose *ᵥ lambda := linSolve_mulVec hLT _
  have hHq : H *ᵥ qddot = c + G.transpose *ᵥ lambda := by
    rw [hH, ← mulVec_mulVec, hLq, hLw]
  constructor
  · rw [hHq]; abel
  · -- w = z + Y·lambda, from injectivity of Lᵀ
    have hLz : L.transpose *ᵥ z = c := linSolve_mulVec hLT _
    have hw_decomp : w = z + Y *ᵥ lambda := by
      have hunit : IsUnit L.transpose :=
        (Matrix.isUnit_iff_isUnit_det _).2 (isUnit_iff_ne_zero.2 hLT)
      apply Matrix.mulVec_injective_iff_isUnit.2 hunit
      rw [hLw, mulVec_add, hLz, mulVec_mulVec, hLY]
    have hG_eq : G = Y.transpose * L := by
      have h := congrArg Matrix.transpose hLY
      rw [Matrix.transpose_mul, Matrix.transpose_transpose,
        Matrix.transpose_transpose] at h
      exact h.symm
    have hKl : K *ᵥ lambda = a := linSolve_mulVec hKdet _
    rw [hG_eq, ← mulVec_mulVec, hLq, hw_decomp, mulVec_add, mulVec_mulVec,
      ← hKdef, hKl, hadef]
    abel

theorem gram_det_ne_zero {α β : Type} [Fintype α] [Fintype β] [DecidableEq α]
    [DecidableEq β] {A : Matrix α β ℚ}
    (hA : ∀ v : β → ℚ, A *ᵥ v = 0 → v = 0) :
    (A.transpose * A).det ≠ 0 := by
  intro hdet
  obtain ⟨w, hw0, hw⟩ := (Matrix.exists_mulVec_eq_zero_iff).2 hdet
  have hdot : w ⬝ᵥ ((A.transpose * A) *ᵥ w) = 0 := by rw [hw, dotProduct_zero]
  have hsq : w ⬝ᵥ ((A.transpose * A) *ᵥ w) = (A *ᵥ w) ⬝ᵥ (A *ᵥ w) := by
    rw [← mulVec_mulVec, dotProduct_mulVec, vecMul_transpose]
  rw [hsq] at hdot
  exact hw0 (hA w (dotProduct_self_eq_zero.1 hdot))

/-- Factorisation `Gᵀ = Y·(G·Y)ᵀ` of the constraint Jacobian through
the range part `Y` of the orthogonal factor of the QR of `Gᵀ`. -/
theorem nullSpace_Gt_factor {n m k : ℕ}
    {G : Matrix (Fin m) (Fin n) ℚ}
    {Y : Matrix (Fin n) (Fin m) ℚ} {Z : Matrix (Fin n) (Fin k) ℚ}
    (hsplit : Y * Y.transpose + Z * Z.transpose = 1)
    (hGZ : G * Z = 0) :
    G.transpose = Y * (G * Y).transpose := by
  have hZG : Z.transpose * G.transpose = 0 := by
    have h := congrArg Matrix.transpose hGZ
    rwa [Matrix.transpose_mul, Matrix.transpose_zero] at h
  calc G.transpose = (Y * Y.transpose + Z * Z.transpose) * G.transpose := by
        rw [hsplit, Matrix.one_mul]
    _ = Y * (Y.transpose * G.transpose) + Z * (Z.transpose * G.transpose) := by
        rw [Matrix.add_mul, Matrix.mul_assoc, Matrix.mul_assoc]
    _ = Y * (G * Y).transpose := by
        rw [hZG, Matrix.mul_zero, add_zero, Matrix.transpose_mul]

theorem nullSpace_GY_det_ne_zero {n m k : ℕ}
    {G : Matrix (Fin m) (Fin n) ℚ}
    {Y : Matrix (Fin n) (Fin m) ℚ} {Z : Matrix (Fin n) (Fin k) ℚ}
    (hsplit : Y * Y.transpose + Z * Z.transpose = 1)
    (hGZ : G * Z = 0) (hG : FullRowRank G) :
    (G * Y).det ≠ 0 := by
  have hfac := nullSpace_Gt_factor hsplit hGZ
  have hker : ∀ w : Fin m → ℚ, (G * Y).transpose *ᵥ w = 0 → w = 0 := by
    intro w hw
    apply hG
    rw [hfac, ← mulVec_mulVec, hw, mulVec_zero]
  intro hdet
  have hdetT : (G * Y).transpose.det = 0 := by rwa [Matrix.det_transpose]
  obtain ⟨w, hw0, hw⟩ := (Matrix.exists_mulVec_eq_zero_iff).2 hdetT
  exact hw0 (hker w hw)

/-- The null-space solver's `qddot` output is a solution of the coupled
system: `G·qddot = gamma` and `H·qddot - c` lies in the range of `Gᵀ`. -/
theorem solveConstrainedSystemNullSpace_kkt {n m k : ℕ}
    {H L : Matrix (Fin n) (Fin n) ℚ} {G : Matrix (Fin m) (Fin n) ℚ}
    {c : Fin n → ℚ} {gamma : Fin m → ℚ}
    {Y : Matrix (Fin n) (Fin m) ℚ} {Z : Matrix (Fin n) (Fin k) ℚ}
    {ls : LinearSolver}
    (hH : H = L.transpose * L) (hL : L.det ≠ 0) (hG : FullRowRank G)
    (hZZ : Z.transpose * Z = 1)
    (hsplit : Y * Y.transpose + Z * Z.transpose = 1)
    (hGZ : G * Z = 0) (hls : ls.isValid = true) :
    ∃ qddot lambdaNS,
      SolveConstrainedSystemNullSpace H G c gamma Y Z ls = .ok (qddot, lambdaNS) ∧
      ∃ lam, H *ᵥ qddot - G.transpose *ᵥ lam = c ∧ G *ᵥ qddot = gamma := by
  have hGY := nullSpace_GY_det_ne_zero hsplit hGZ hG
  have hZker : ∀ v : Fin k → ℚ, (L * Z) *ᵥ v = 0 → v = 0 := by
    intro v hv
    have hunit : IsUnit L := (Matrix.isUnit_iff_isUnit_det L).2 (isUnit_iff_ne_zero.2 hL)
    have hZv : Z *ᵥ v = 0 := by
      apply Matrix.mulVec_injective_iff_isUnit.2 hunit
      rw [mulVec_mulVec, hv, mulVec_zero]
    calc v = (Z.transpose * Z) *ᵥ v := by rw [hZZ, Matrix.one_mulVec]
      _ = 0 := by rw [← mulVec_mulVec, hZv, mulVec_zero]
  have hZHZ_eq : Z.transpose * H * Z = (L * Z).transpose * (L * Z) := by
    rw [hH, Matrix.transpose_mul]
    simp only [Matrix.mul_assoc]
  have hZHZ : (Z.transpose * H * Z).det ≠ 0 := by
    rw [hZHZ_eq]; exact gram_det_ne_zero hZker
  set qy := linSolve (G * Y) gamma with hqy
  set qz := linSolve (Z.transpose * H * Z)
    (Z.transpose *ᵥ (c - H *ᵥ (Y *ᵥ qy))) with hqz
  set qd := Y *ᵥ qy + Z *ᵥ qz with hqd
  set lamNS := linSolve (G * Y) (Y.transpose *ᵥ (H *ᵥ qd - c)) with hlamNS
  refine ⟨qd, lamNS, ?_, ?_⟩
  · unfold SolveConstrainedSystemNullSpace
    simp only [dispatchSolve_valid hls]
    rfl
  · have hGYq : (G * Y) *ᵥ qy = gamma := linSolve_mulVec hGY _
    have hZq : (Z.transpose * H * Z) *ᵥ qz = Z.transpose *ᵥ (c - H *ᵥ (Y *ᵥ qy)) :=
      linSolve_mulVec hZHZ _
    have hGqd : G *ᵥ qd = gamma := by
      rw [hqd, mulVec_add, mulVec_mulVec, mulVec_mulVec, hGZ,
        Matrix.zero_mulVec, add_zero, hGYq]
    have hZr : Z.transpose *ᵥ (H *ᵥ qd - c) = 0 := by
      have hexp : Z.transpose *ᵥ (H *ᵥ qd - c)
          = (Z.transpose * H * Z) *ᵥ qz - Z.transpose *ᵥ (c - H *ᵥ (Y *ᵥ qy)) := by
        rw [hqd, mulVec_add, mulVec_sub, mulVec_sub, mulVec_add]
        rw [show Z.transpose * H * Z = Z.transpose * (H * Z) from Matrix.mul_assoc _ _ _]
        rw [← mulVec_mulVec (qz) (Z.transpose) (H * Z), ← mulVec_mulVec qz H Z]
        abel
      rw [hexp, hZq, sub_self]
    set r := H *ᵥ qd - c with hr
    have hrfac : r = Y *ᵥ (Y.transpose *ᵥ r) := by
      calc r = (Y * Y.transpose + Z * Z.transpose) *ᵥ r := by
            rw [hsplit, Matrix.one_mulVec]
        _ = Y *ᵥ (Y.transpose *ᵥ r) + Z *ᵥ (Z.transpose *ᵥ r) := by
            rw [add_mulVec, ← mulVec_mulVec, ← mulVec_mulVec]
        _ = Y *ᵥ (Y.transpose *ᵥ r) := by rw [hZr, mulVec_zero, add_zero]
    have hGYT : (G * Y).transpose.det ≠ 0 := by rwa [Matrix.det_transpose]
    refine ⟨linSolve (G * Y).transpose (Y.transpose *ᵥ r), ?_, hGqd⟩
    have hsolve : (G * Y).transpose *ᵥ linSolve (G * Y).transpose (Y.transpose *ᵥ r)
        = Y.transpose *ᵥ r := linSolve_mulVec hGYT _
    have hGlam : G.transpose *ᵥ linSolve (G * Y).transpose (Y.transpose *ᵥ r) = r := by
      rw [nullSpace_Gt_factor hsplit hGZ, ← mulVec_mulVec, hsolve, ← hrfac]
    rw [hGlam, hr]
    abel

/-- C1 (amended): for a bound constraint set whose assembled system has
`H` symmetric positive definite (exhibited by an invertible factor `L`
with `H = Lᵀ·L`, as produced by the sparse factorization) and `G` of
full row rank, the three forward-dynamics entry points called on the
same assembled system agree exactly on the generalized accelerations
`qddot`; `Direct` and `RangeSpaceSparse` moreover store the same
constraint-space force `lambda`, while the `NullSpace` entry point
stores a lambda obtained from `(G·Y)·λ = Yᵀ·(H·qddot - c)`, which can
differ (see the counterexample). -/
theorem crossSolver_agreement {n m k : ℕ}
    {H L : Matrix (Fin n) (Fin n) ℚ} {G : Matrix (Fin m) (Fin n) ℚ}
    {c : Fin n → ℚ} {gamma : Fin m → ℚ}
    {Y : Matrix (Fin n) (Fin m) ℚ} {Z : Matrix (Fin n) (Fin k) ℚ}
    {ls : LinearSolver}
    (hH : H = L.transpose * L) (hL : L.det ≠ 0) (hG : FullRowRank G)
    (hZZ : Z.transpose * Z = 1)
    (hsplit : Y * Y.transpose + Z * Z.transpose = 1)
    (hGZ : G * Z = 0) (hls : ls.isValid = true) :
    ∃ qddot lambda,
      ForwardDynamicsConstraintsDirect H G c gamma ls = .ok (qddot, lambda) ∧
      ForwardDynamicsConstraintsRangeSpaceSparse L G c gamma = (qddot, lambda) ∧
      ∃ lambdaNS,
        ForwardDynamicsConstraintsNullSpace H G c gamma Y Z ls
          = .ok (qddot, lambdaNS) := by
  have hdet := kkt_det_ne_zero hH hL hG
  obtain ⟨qd, lam, hdir, hk1, hk2⟩ :=
    @forwardDynamicsConstraintsDirect_kkt n m H G c gamma ls hdet hls
  refine ⟨qd, lam, hdir, ?_, ?_⟩
  · have hrs := @solveConstrainedSystemRangeSpaceSparse_kkt n m H L G c gamma hH hL hG
    have huniq := kkt_solution_unique hdet ⟨hrs.1, hrs.2⟩ ⟨hk1, hk2⟩
    unfold ForwardDynamicsConstraintsRangeSpaceSparse
    rw [show SolveConstrainedSystemRangeSpaceSparse L G c gamma
        = ((SolveConstrainedSystemRangeSpaceSparse L G c gamma).1,
           (SolveConstrainedSystemRangeSpaceSparse L G c gamma).2) from rfl,
      huniq.1, huniq.2]
  · obtain ⟨qN, lamN, hns, lam', h1, h2⟩ :=
      @solveConstrainedSystemNullSpace_kkt n m k H L G c gamma Y Z ls
        hH hL hG hZZ hsplit hGZ hls
    have huniq := kkt_solution_unique hdet ⟨h1, h2⟩ ⟨hk1, hk2⟩
    refine ⟨lamN, ?_⟩
    unfold ForwardDynamicsConstraintsNullSpace
    rw [hns, huniq.1]

/-- C1 witness system: a one-dof, one-constraint assembled system. -/
theorem crossSolver_agreement_witness :
    ∃ qddot lambda,
      ForwardDynamicsConstraintsDirect (1 : Matrix (Fin 1) (Fin 1) ℚ) !![(1 : ℚ)]
          0 ![1] .LinearSolverHouseholderQR = .ok (qddot, lambda) ∧
      ForwardDynamicsConstraintsRangeSpaceSparse (1 : Matrix (Fin 1) (Fin 1) ℚ)
          !![(1 : ℚ)] 0 ![1] = (qddot, lambda) ∧
      ∃ lambdaNS,
        ForwardDynamicsConstraintsNullSpace (1 : Matrix (Fin 1) (Fin 1) ℚ)
            !![(1 : ℚ)] 0 ![1] !![(1 : ℚ)] (0 : Matrix (Fin 1) (Fin 0) ℚ)
            .LinearSolverHouseholderQR = .ok (qddot, lambdaNS) :=
  crossSolver_agreement
    (by simp)
    (by simp)
    (by
      intro v hv
      have h0 := congrFun hv 0
      simp [Matrix.mulVec, Matrix.dotProduct, Fin.sum_univ_succ,
        Matrix.transpose_apply] at h0
      funext j
      fin_cases j
      simpa using h0)
    (by ext i j; exact i.elim0)
    (by
      ext i j
      fin_cases i <;> fin_cases j <;>
        simp [Matrix.mul_apply, Fin.sum_univ_succ, Matrix.one_apply,
          Matrix.vecHead, Matrix.vecTail, Function.comp] <;> rfl)
    (by ext i j; exact j.elim0)
    rfl

/-- Concrete assembled system used to separate the null-space lambda
from the direct/range-space lambda: three dofs, two constraint rows. -/
def Hc : Matrix (Fin 3) (Fin 3) ℚ := 1

/-- Concrete constraint Jacobian with full row rank. -/
def Gc : Matrix (Fin 2) (Fin 3) ℚ := !![1, 0, 0; 1, 1, 0]

/-- Concrete generalized-force residual `Tau - C`. -/
def cc : Fin 3 → ℚ := 0

/-- Concrete constraint bias `gamma`. -/
def gc : Fin 2 → ℚ := ![1, 1]

/-- Range part of the orthogonal factor of the Householder QR of `Gcᵀ`
(this split is exactly what Gram-Schmidt on the columns of `Gcᵀ`
produces; Householder can only flip column signs, which cancel in both
solved systems). -/
def Yc : Matrix (Fin 3) (Fin 2) ℚ := !![1, 0; 0, 1; 0, 0]

/-- Null part of the orthogonal factor of the Householder QR of `Gcᵀ`. -/
def Zc : Matrix (Fin 3) (Fin 1) ℚ := !![0; 0; 1]

theorem Gc_fullRowRank : FullRowRank Gc := by
  intro v hv
  have h0 := congrFun hv 0
  have h1 := congrFun hv 1
  simp [Gc, Matrix.mulVec, Matrix.dotProduct, Fin.sum_univ_succ,
    Matrix.transpose_apply, Matrix.vecHead, Matrix.vecTail] at h0 h1
  have hv1 : v 1 = 0 := h1
  have hv0 : v 0 = 0 := by linarith
  funext j
  fin_cases j
  · exact hv0
  · exact hv1

theorem kkt_c1_det : (kktMatrix Hc Gc).det ≠ 0 := by
  refine @kkt_det_ne_zero 3 2 Hc Gc 1 ?_ ?_ Gc_fullRowRank
  · simp [Hc]
  · simp

/-- C1 counterexample: on the concrete well-posed system, the direct
entry point stores `lambda = (1, 0)` while the null-space entry point
stores `lambda = (1, -1)`; both produce `qddot = (1, 0, 0)`.  The
conjuncts record that `(Yc, Zc)` is a legitimate orthogonal range/null
split of the QR of `Gcᵀ` (with upper-triangular `R = (Gc·Yc)ᵀ`). -/
theorem nullSpace_lambda_mismatch :
    (Yc.transpose * Yc = 1 ∧ Zc.transpose * Zc = 1 ∧
      Yc * Yc.transpose + Zc * Zc.transpose = 1 ∧ Gc * Zc = 0 ∧
      (Gc * Yc).transpose = !![1, 1; 0, 1]) ∧
    ForwardDynamicsConstraintsDirect Hc Gc cc gc .LinearSolverHouseholderQR
      = .ok (![1, 0, 0], ![1, 0]) ∧
    ForwardDynamicsConstraintsNullSpace Hc Gc cc gc Yc Zc
        .LinearSolverHouseholderQR
      = .ok (![1, 0, 0], ![1, -1]) ∧
    ![(1 : ℚ), 0] ≠ ![1, -1] := by
  have hGYmat : Gc * Yc = !![1, 0; 1, 1] := by
    ext i j
    fin_cases i <;> fin_cases j <;>
      simp [Gc, Yc, Matrix.mul_apply, Fin.sum_univ_succ]
  have hGYdet : (Gc * Yc).det ≠ 0 := by
    rw [hGYmat]
    norm_num [Matrix.det_fin_two]
  have hqy : linSolve (Gc * Yc) gc = ![1, 0] := by
    apply linSolve_unique hGYdet
    rw [hGYmat]
    funext i
    fin_cases i <;>
      simp [gc, Matrix.mulVec, Matrix.dotProduct, Fin.sum_univ_succ]
  have hYq : Yc *ᵥ ![1, 0] = ![1, 0, 0] := by
    funext i
    fin_cases i <;>
      simp [Yc, Matrix.mulVec, Matrix.dotProduct, Fin.sum_univ_succ]
  have hZHZ : Zc.transpose * Hc * Zc = !![1] := by
    ext i j
    fin_cases i <;> fin_cases j <;>
      simp [Zc, Hc, Matrix.mul_apply, Fin.sum_univ_succ, Matrix.one_apply]
  have hinner : Zc.transpose *ᵥ (cc - Hc *ᵥ ![1, 0, 0]) = ![0] := by
    funext i
    fin_cases i <;>
      simp [Zc, Hc, cc, Matrix.mulVec, Matrix.dotProduct, Fin.sum_univ_succ,
        Matrix.transpose_apply]
  have hqz : linSolve (Zc.transpose * Hc * Zc)
      (Zc.transpose *ᵥ (cc - Hc *ᵥ ![1, 0, 0])) = ![0] := by
    apply linSolve_unique
    · rw [hZHZ]; norm_num [Matrix.det_fin_one]
    · rw [hinner, hZHZ]
      funext i
      fin_cases i <;>
        simp [Matrix.mulVec, Matrix.dotProduct, Fin.sum_univ_succ]
  have hqd : (![1, 0, 0] : Fin 3 → ℚ) + Zc *ᵥ ![0] = ![1, 0, 0] := by
    funext i
    fin_cases i <;>
      simp [Zc, Matrix.mulVec, Matrix.dotProduct, Fin.sum_univ_succ,
        Matrix.vecHead, Matrix.vecTail]
  have hYr : Yc.transpose *ᵥ (Hc *ᵥ ![1, 0, 0] - cc) = ![1, 0] := by
    funext i
    fin_cases i <;>
      simp [Yc, Hc, cc, Matrix.mulVec, Matrix.dotProduct, Fin.sum_univ_succ,
        Matrix.transpose_apply]
  have hlamNS : linSolve (Gc * Yc) ![1, 0] = ![1, -1] := by
    apply linSolve_unique hGYdet
    rw [hGYmat]
    funext i
    fin_cases i <;>
      simp [Matrix.mulVec, Matrix.dotProduct, Fin.sum_univ_succ]
  refine ⟨⟨?_, ?_, ?_, ?_, ?_⟩, ?_, ?_, ?_⟩
  · ext i j
    fin_cases i <;> fin_cases j <;>
      simp [Yc, Matrix.mul_apply, Fin.sum_univ_succ, Matrix.one_apply]
  · ext i j
    fin_cases i <;> fin_cases j <;>
      simp [Zc, Matrix.mul_apply, Fin.sum_univ_succ, Matrix.one_apply]
  · ext i j
    fin_cases i <;> fin_cases j <;>
      simp [Yc, Zc, Matrix.mul_apply, Fin.sum_univ_succ, Matrix.one_apply,
        Matrix.vecHead, Matrix.vecTail, Function.comp] <;> rfl
  · ext i j
    fin_cases i <;> fin_cases j <;>
      simp [Gc, Zc, Matrix.mul_apply, Fin.sum_univ_succ,
        Matrix.vecHead, Matrix.vecTail] <;> rfl
  · rw [hGYmat]
    ext i j
    fin_cases i <;> fin_cases j <;> simp [Matrix.vecHead, Matrix.vecTail] <;> rfl
  · -- the direct path
    have hxs : (kktMatrix Hc Gc) *ᵥ (Sum.elim ![1, 0, 0] ![-1, 0])
        = kktRhs cc gc := by
      unfold kktMatrix kktRhs
      rw [Matrix.fromBlocks_mulVec]
      funext i
      cases i with
      | inl i =>
        fin_cases i <;>
          simp [Hc, Gc, cc, Matrix.mulVec, Matrix.dotProduct, Fin.sum_univ_succ,
            Matrix.transpose_apply, Matrix.one_apply, Matrix.vecHead,
            Matrix.vecTail, Function.comp] <;> norm_num
      | inr j =>
        fin_cases j <;>
          simp [Gc, gc, Matrix.mulVec, Matrix.dotProduct, Fin.sum_univ_succ,
            Matrix.vecHead, Matrix.vecTail, Function.comp] <;> norm_num
    have hxval : linSolve (kktMatrix Hc Gc) (kktRhs cc gc)
        = Sum.elim ![1, 0, 0] ![-1, 0] := linSolve_unique kkt_c1_det hxs
    have hlsv : LinearSolver.isValid .LinearSolverHouseholderQR = true := rfl
    unfold ForwardDynamicsConstraintsDirect SolveConstrainedSystemDirect
    rw [dispatchSolve_valid hlsv, hxval]
    refine congrArg Except.ok (Prod.ext ?_ ?_)
    · rfl
    · funext j
      fin_cases j <;> norm_num
  · -- the null-space path
    have hraw : ForwardDynamicsConstraintsNullSpace Hc Gc cc gc Yc Zc
        .LinearSolverHouseholderQR
        = .ok (Yc *ᵥ linSolve (Gc * Yc) gc
            + Zc *ᵥ linSolve (Zc.transpose * Hc * Zc)
                (Zc.transpose *ᵥ (cc - Hc *ᵥ (Yc *ᵥ linSolve (Gc * Yc) gc))),
          linSolve (Gc * Yc) (Yc.transpose *ᵥ
            (Hc *ᵥ (Yc *ᵥ linSolve (Gc * Yc) gc
              + Zc *ᵥ linSolve (Zc.transpose * Hc * Zc)
                (Zc.transpose *ᵥ (cc - Hc *ᵥ (Yc *ᵥ linSolve (Gc * Yc) gc))))
              - cc))) := rfl
    rw [hraw, hqy, hYq, hqz, hqd, hYr, hlamNS]
  · intro h
    have := congrFun h 1
    norm_num at this

theorem linSolve_eq_inv_mulVec {α : Type} [Fintype α] [DecidableEq α]
    {A : Matrix α α ℚ} (hA : A.det ≠ 0) (b : α → ℚ) :
    linSolve A b = A⁻¹ *ᵥ b := by
  apply linSolve_unique hA
  rw [mulVec_mulVec, Matrix.mul_nonsing_inv A (isUnit_iff_ne_zero.2 hA), one_mulVec]

/-- C2: `SolveConstrainedSystemDirect` assembles the augmented matrix
`A = [[H, Gᵀ],[G, 0]]` (recorded entrywise) and right-hand side
`b = [c; gamma]`, solves `A·x = b` with the configured dense
factorization, and `ForwardDynamicsConstraintsDirect` reads `qddot`
from the first `n` entries of `x` and stores the negation of the
trailing `m` entries into the registry's force array; consequently
the stored force is the force exerted by the constraint:
`H·qddot = c + Gᵀ·force` and `G·qddot = gamma`. -/
theorem solveConstrainedSystemDirect_assembly_readback {n m : ℕ}
    (H : Matrix (Fin n) (Fin n) ℚ) (G : Matrix (Fin m) (Fin n) ℚ)
    (c : Fin n → ℚ) (gamma : Fin m → ℚ) (ls : LinearSolver)
    (hls : ls.isValid = true) (hdet : (kktMatrix H G).det ≠ 0) :
    ∃ x : Fin n ⊕ Fin m → ℚ,
      SolveConstrainedSystemDirect H G c gamma ls = .ok x ∧
      (∀ i j, kktMatrix H G (Sum.inl i) (Sum.inl j) = H i j) ∧
      (∀ i j, kktMatrix H G (Sum.inl i) (Sum.inr j) = G j i) ∧
      (∀ i j, kktMatrix H G (Sum.inr i) (Sum.inl j) = G i j) ∧
      (∀ i j, kktMatrix H G (Sum.inr i) (Sum.inr j) = 0) ∧
      (∀ i, kktRhs c gamma (Sum.inl i) = c i) ∧
      (∀ j, kktRhs c gamma (Sum.inr j) = gamma j) ∧
      (kktMatrix H G) *ᵥ x = kktRhs c gamma ∧
      ForwardDynamicsConstraintsDirect H G c gamma ls
        = .ok (fun i => x (Sum.inl i), fun j => -(x (Sum.inr j))) ∧
      H *ᵥ (fun i => x (Sum.inl i))
        = c + G.transpose *ᵥ (fun j => -(x (Sum.inr j))) ∧
      G *ᵥ (fun i => x (Sum.inl i)) = gamma := by
  refine ⟨linSolve (kktMatrix H G) (kktRhs c gamma), ?_, ?_, ?_, ?_, ?_, ?_, ?_,
    linSolve_mulVec hdet _, ?_, ?_, ?_⟩
  · unfold SolveConstrainedSystemDirect
    rw [dispatchSolve_valid hls]
  · intro i j; rfl
  · intro i j; rfl
  · intro i j; rfl
  · intro i j; rfl
  · intro i; rfl
  · intro j; rfl
  · unfold ForwardDynamicsConstraintsDirect SolveConstrainedSystemDirect
    rw [dispatchSolve_valid hls]
    rfl
  · obtain ⟨qd, lam, hok, hk1, hk2⟩ :=
      @forwardDynamicsConstraintsDirect_kkt n m H G c gamma ls hdet hls
    have hok' : ForwardDynamicsConstraintsDirect H G c gamma ls
        = .ok (fun i => linSolve (kktMatrix H G) (kktRhs c gamma) (Sum.inl i),
               fun j => -(linSolve (kktMatrix H G) (kktRhs c gamma) (Sum.inr j))) := by
      unfold ForwardDynamicsConstraintsDirect SolveConstrainedSystemDirect
      rw [dispatchSolve_valid hls]
      rfl
    have hpair := hok.symm.trans hok'
    have hq : qd = fun i => linSolve (kktMatrix H G) (kktRhs c gamma) (Sum.inl i) :=
      congrArg (fun p => p.1) (Except.ok.inj hpair)
    have hl : lam = fun j => -(linSolve (kktMatrix H G) (kktRhs c gamma) (Sum.inr j)) :=
      congrArg (fun p => p.2) (Except.ok.inj hpair)
    rw [← hq, ← hl, ← hk1]
    abel
  · obtain ⟨qd, lam, hok, hk1, hk2⟩ :=
      @forwardDynamicsConstraintsDirect_kkt n m H G c gamma ls hdet hls
    have hok' : ForwardDynamicsConstraintsDirect H G c gamma ls
        = .ok (fun i => linSolve (kktMatrix H G) (kktRhs c gamma) (Sum.inl i),
               fun j => -(linSolve (kktMatrix H G) (kktRhs c gamma) (Sum.inr j))) := by
      unfold ForwardDynamicsConstraintsDirect SolveConstrainedSystemDirect
      rw [dispatchSolve_valid hls]
      rfl
    have hpair := hok.symm.trans hok'
    have hq : qd = fun i => linSolve (kktMatrix H G) (kktRhs c gamma) (Sum.inl i) :=
      congrArg (fun p => p.1) (Except.ok.inj hpair)
    rw [← hq]
    exact hk2

/-- C2 witness: the one-dof, one-constraint system `H = [1]`,
`G = [1]`, `c = 0`, `gamma = [1]`. -/
theorem solveConstrainedSystemDirect_assembly_readback_witness :
    ∃ x : Fin 1 ⊕ Fin 1 → ℚ,
      SolveConstrainedSystemDirect (1 : Matrix (Fin 1) (Fin 1) ℚ) !![(1 : ℚ)]
          0 ![1] .LinearSolverPartialPivLU = .ok x ∧
      (∀ i j, kktMatrix (1 : Matrix (Fin 1) (Fin 1) ℚ) !![(1 : ℚ)]
          (Sum.inl i) (Sum.inl j) = (1 : Matrix (Fin 1) (Fin 1) ℚ) i j) ∧
      (∀ i j, kktMatrix (1 : Matrix (Fin 1) (Fin 1) ℚ) !![(1 : ℚ)]
          (Sum.inl i) (Sum.inr j) = !![(1 : ℚ)] j i) ∧
      (∀ i j, kktMatrix (1 : Matrix (Fin 1) (Fin 1) ℚ) !![(1 : ℚ)]
          (Sum.inr i) (Sum.inl j) = !![(1 : ℚ)] i j) ∧
      (∀ i j, kktMatrix (1 : Matrix (Fin 1) (Fin 1) ℚ) !![(1 : ℚ)]
          (Sum.inr i) (Sum.inr j) = 0) ∧
      (∀ i, kktRhs (0 : Fin 1 → ℚ) ![1] (Sum.inl i) = 0) ∧
      (∀ j, kktRhs (0 : Fin 1 → ℚ) ![1] (Sum.inr j) = ![(1 : ℚ)] j) ∧
      (kktMatrix (1 : Matrix (Fin 1) (Fin 1) ℚ) !![(1 : ℚ)]) *ᵥ x
        = kktRhs (0 : Fin 1 → ℚ) ![1] ∧
      ForwardDynamicsConstraintsDirect (1 : Matrix (Fin 1) (Fin 1) ℚ) !![(1 : ℚ)]
          0 ![1] .LinearSolverPartialPivLU
        = .ok (fun i => x (Sum.inl i), fun j => -(x (Sum.inr j))) ∧
      (1 : Matrix (Fin 1) (Fin 1) ℚ) *ᵥ (fun i => x (Sum.inl i))
        = 0 + !![(1 : ℚ)].transpose *ᵥ (fun j => -(x (Sum.inr j))) ∧
      !![(1 : ℚ)] *ᵥ (fun i => x (Sum.inl i)) = ![1] := by
  have hw := solveConstrainedSystemDirect_assembly_readback
    (1 : Matrix (Fin 1) (Fin 1) ℚ) !![(1 : ℚ)] 0 ![1]
    .LinearSolverPartialPivLU rfl
    (by
      refine @kkt_det_ne_zero 1 1 1 !![(1 : ℚ)] 1 (by simp) (by simp) ?_
      intro v hv
      have h0 := congrFun hv 0
      simp [Matrix.mulVec, Matrix.dotProduct, Fin.sum_univ_succ,
        Matrix.transpose_apply] at h0
      funext j
      fin_cases j
      simpa using h0)
  obtain ⟨x, h⟩ := hw
  exact ⟨x, h.1, h.2.1, h.2.2.1, h.2.2.2.1, h.2.2.2.2.1, h.2.2.2.2.2.1,
    h.2.2.2.2.2.2.1, h.2.2.2.2.2.2.2.1, h.2.2.2.2.2.2.2.2.1,
    h.2.2.2.2.2.2.2.2.2.1, h.2.2.2.2.2.2.2.2.2.2⟩

/-- C10: `ComputeConstraintImpulsesDirect` stores the constraint-space
solution into the impulse array without negation
(`impulse[j] = x[n + j]`), the opposite sign convention from
`ForwardDynamicsConstraintsDirect`, which stores `-x[n + j]` into the
force array; on identically assembled systems the stored impulse is
the negation of the stored force. -/
theorem computeConstraintImpulsesDirect_sign {n m : ℕ}
    (H : Matrix (Fin n) (Fin n) ℚ) (G : Matrix (Fin m) (Fin n) ℚ)
    (QDotMinus : Fin n → ℚ) (v_plus : Fin m → ℚ) (ls : LinearSolver)
    (hls : ls.isValid = true) :
    ∃ x : Fin n ⊕ Fin m → ℚ,
      SolveConstrainedSystemDirect H G (H *ᵥ QDotMinus) v_plus ls = .ok x ∧
      ComputeConstraintImpulsesDirect H G QDotMinus v_plus ls
        = .ok (fun i => x (Sum.inl i), fun j => x (Sum.inr j)) ∧
      ForwardDynamicsConstraintsDirect H G (H *ᵥ QDotMinus) v_plus ls
        = .ok (fun i => x (Sum.inl i), fun j => -(x (Sum.inr j))) ∧
      (fun j => x (Sum.inr j)) = -(fun j => -(x (Sum.inr j))) := by
  refine ⟨linSolve (kktMatrix H G) (kktRhs (H *ᵥ QDotMinus) v_plus), ?_, ?_, ?_, ?_⟩
  · unfold SolveConstrainedSystemDirect
    rw [dispatchSolve_valid hls]
  · unfold ComputeConstraintImpulsesDirect SolveConstrainedSystemDirect
    rw [dispatchSolve_valid hls]
    rfl
  · unfold ForwardDynamicsConstraintsDirect SolveConstrainedSystemDirect
    rw [dispatchSolve_valid hls]
    rfl
  · funext j
    simp

/-- C10 witness: concrete one-dof, one-constraint impulse system. -/
theorem computeConstraintImpulsesDirect_sign_witness :
    ∃ x : Fin 1 ⊕ Fin 1 → ℚ,
      SolveConstrainedSystemDirect (1 : Matrix (Fin 1) (Fin 1) ℚ) !![(1 : ℚ)]
          ((1 : Matrix (Fin 1) (Fin 1) ℚ) *ᵥ ![2]) ![0]
          .LinearSolverColPivHouseholderQR = .ok x ∧
      ComputeConstraintImpulsesDirect (1 : Matrix (Fin 1) (Fin 1) ℚ) !![(1 : ℚ)]
          ![2] ![0] .LinearSolverColPivHouseholderQR
        = .ok (fun i => x (Sum.inl i), fun j => x (Sum.inr j)) ∧
      ForwardDynamicsConstraintsDirect (1 : Matrix (Fin 1) (Fin 1) ℚ) !![(1 : ℚ)]
          ((1 : Matrix (Fin 1) (Fin 1) ℚ) *ᵥ ![2]) ![0]
          .LinearSolverColPivHouseholderQR
        = .ok (fun i => x (Sum.inl i), fun j => -(x (Sum.inr j))) ∧
      (fun j => x (Sum.inr j)) = -(fun j => -(x (Sum.inr j))) :=
  computeConstraintImpulsesDirect_sign (1 : Matrix (Fin 1) (Fin 1) ℚ)
    !![(1 : ℚ)] ![2] ![0] .LinearSolverColPivHouseholderQR rfl

/-!  Kokkevis contact solver (Constraints.cc:1471-1666) and its in-src
articulated-body collaborators `ForwardDynamicsApplyConstraintForces`
(Constraints.cc:1156-1325) and `ForwardDynamicsAccelerationDeltas`
(Constraints.cc:1336-1462).

The two recursions live in src/src/Constraints.cc and are embedded
faithfully below, as backward/forward sweeps over an explicit model
state (`ABModel`).  They consume cached articulated-body quantities —
`model.U`/`model.d` (resp. `multdof3_U`/`multdof3_Dinv`, the custom
joint's `U`/`Dinv`), the body velocities `model.v`, the
velocity-product accelerations `model.c`, the transforms, the body
inertias and `model.a[0]` — that are written by the out-of-src
collaborators (`ForwardDynamics` of Dynamics.cc,
`UpdateKinematicsCustom` of Kinematics.cc) before each sweep runs;
those cached fields are therefore inputs of the embedded model.  The
genuinely absent collaborators are modelled from the spec contracts
(§4.2, §4.6, §6): `ForwardDynamics` (baseline accelerations solving
`H·QDDot_0 = Tau - C`) and the `ContactConstraint` methods
`calcPointAccelerations` / `calcPointAccelerationError` /
`calcPointForceJacobian`.  The contact system is described per
constraint row `r` (the loops over constraints `bi` and their
directions `j` jointly enumerate every row `ci+j` exactly once) by the
row Jacobian `G` (the constraint direction dotted with the point
Jacobian) and a velocity-dependent bias `beta`, so that the point
acceleration of row `r` under accelerations `qddot` is
`(G·qddot + beta) r`; `calcPointForceJacobian` supplies the per-row
test-force spatial vectors `f_t`.  The bridge between the cached state
and the assembled system `H`, `G` — that the embedded sweeps realise
the mass-matrix response — is exactly the contract of the out-of-src
baseline pass; the agreement theorem states it as explicit hypotheses,
and its witness discharges them by evaluating the embedded recursions
on a concrete one-body model. -/

/-- Modelled from the spec: the external unconstrained forward dynamics
`ForwardDynamics(model, Q, QDot, Tau, QDDot_0)` returns the
accelerations solving `H·QDDot_0 = Tau - C` (mass-matrix /
bias-force contract of §6). -/
def kokkevisQDDot0 {n : ℕ} (H : Matrix (Fin n) (Fin n) ℚ)
    (CBias Tau : Fin n → ℚ) : Fin n → ℚ :=
  linSolve H (Tau - CBias)

/-- Modelled from the spec: `ContactConstraint::calcPointAccelerations`
followed by the dot with the constraint direction of row `r`: the
constraint-space point acceleration under `qddot`. -/
def pointAccelRow {n m : ℕ} (G : Matrix (Fin m) (Fin n) ℚ)
    (beta : Fin m → ℚ) (qddot : Fin n → ℚ) (r : Fin m) : ℚ :=
  (G *ᵥ qddot) r + beta r

/-- Cross product of two 3-vectors, from the external math library. -/
def cross3 (a b : Fin 3 → ℚ) : Fin 3 → ℚ :=
  ![a 1 * b 2 - a 2 * b 1, a 2 * b 0 - a 0 * b 2, a 0 * b 1 - a 1 * b 0]

/-- Angular (first three) components of a spatial vector. -/
def sAng (v : Fin 6 → ℚ) : Fin 3 → ℚ := ![v 0, v 1, v 2]

/-- Linear (last three) components of a spatial vector. -/
def sLin (v : Fin 6 → ℚ) : Fin 3 → ℚ := ![v 3, v 4, v 5]

/-- Spatial vector from its angular and linear parts. -/
def mkSpatial (a l : Fin 3 → ℚ) : Fin 6 → ℚ :=
  ![a 0, a 1, a 2, l 0, l 1, l 2]

/-- Spatial force cross product `crossf(v, f)` of the external math
library (rbdl_mathutils), used for the velocity-product bias
`crossf(v[i], I[i]·v[i])`. -/
def crossf (v f : Fin 6 → ℚ) : Fin 6 → ℚ :=
  mkSpatial (cross3 (sAng v) (sAng f) + cross3 (sLin v) (sLin f))
    (cross3 (sAng v) (sLin f))

/-- Per-joint data of a movable body: the branch taken by the
articulated-body sweeps (3-DoF spherical, 1-DoF, or a custom joint of
`dof` degrees of freedom) with its motion subspace and the cached
factorization quantities (`model.S`/`model.U`/`model.d`,
`model.multdof3_S`/`multdof3_U`/`multdof3_Dinv`, or the custom joint's
`S`/`U`/`Dinv`) written by the out-of-src baseline pass and only read
by the two in-src recursions. -/
inductive JointData : Type
  | spherical (S U : Matrix (Fin 6) (Fin 3) ℚ)
      (Dinv : Matrix (Fin 3) (Fin 3) ℚ)
  | single (S U : Fin 6 → ℚ) (d : ℚ)
  | customJ (dof : ℕ) (S U : Matrix (Fin 6) (Fin dof) ℚ)
      (Dinv : Matrix (Fin dof) (Fin dof) ℚ)

/-- The model state read by the two in-src recursions: number of
movable bodies (`1 … nb`, with `0` the fixed base), the parent array
`model.lambda` (`lam i < i` on movable bodies), the transforms
`X_lambda[i].toMatrix()` and `X_base[i].toMatrixAdjoint()` as plain
6×6 matrices, the body inertias `I`, the cached body velocities `v`
and velocity-product accelerations `c`, the per-joint data, the
generalized-coordinate offsets `q_index`, gravity, the value of
`model.a[0]` at entry of the deltas sweep (zeroed by the preceding
`UpdateKinematicsCustom`), and the fixed-body resolution data of
`Model` used by `GetMovableBodyId`. -/
structure ABModel where
  nb : ℕ
  lam : ℕ → ℕ
  X_lambda : ℕ → Matrix (Fin 6) (Fin 6) ℚ
  X_base_adj : ℕ → Matrix (Fin 6) (Fin 6) ℚ
  I : ℕ → Matrix (Fin 6) (Fin 6) ℚ
  v : ℕ → Fin 6 → ℚ
  c : ℕ → Fin 6 → ℚ
  joint : ℕ → JointData
  q_index : ℕ → ℕ
  gravity : Fin 3 → ℚ
  a0 : Fin 6 → ℚ
  isFixedBodyId : ℕ → Bool
  fixed_body_discriminator : ℕ
  movableParent : ℕ → ℕ

/-- Embedding of `GetMovableBodyId` (Constraints.cc:1706-1714): a
fixed body id resolves to its movable parent
(`model.IsFixedBodyId` / `model.mFixedBodies[..].mMovableParent` are
`Model` internals, carried as fields of `ABModel`). -/
def GetMovableBodyId (M : ABModel) (id : ℕ) : ℕ :=
  if M.isFixedBodyId id then M.movableParent (id - M.fixed_body_discriminator)
  else id

/-- State of the backward sweep of
`ForwardDynamicsApplyConstraintForces`: the articulated inertias
`model.IA`, the bias forces `model.pA`, and the per-joint `u` values
(`model.u[i]`, `model.multdof3_u[i]`, or the custom joint's `u`,
stored uniformly as a dof-indexed function). -/
structure ABSweepState where
  IA : ℕ → Matrix (Fin 6) (Fin 6) ℚ
  pA : ℕ → Fin 6 → ℚ
  uv : ℕ → ℕ → ℚ

/-- First loop of `ForwardDynamicsApplyConstraintForces`
(Constraints.cc:1167-1177): `IA[i] = I[i].toMatrix()`,
`pA[i] = crossf(v[i], I[i]·v[i]) - X_base[i].toMatrixAdjoint()·f_ext[i]`
(the source skips the subtraction when `f_ext[i]` is the zero vector,
which subtracts nothing either way); the `u` values are overwritten by
the backward sweep before being read. -/
def initApply (M : ABModel) (fext : ℕ → Fin 6 → ℚ) : ABSweepState where
  IA := fun i => M.I i
  pA := fun i => crossf (M.v i) (M.I i *ᵥ M.v i) - M.X_base_adj i *ᵥ fext i
  uv := fun _ _ => 0

/-- One iteration of the backward sweep of
`ForwardDynamicsApplyConstraintForces` (Constraints.cc:1183-1276) at
body `i`: the joint-space `u` is computed from `Tau` and `pA[i]`, and
if the parent is not the base the articulated inertia and bias are
folded into it through `X_lambda[i]` using the cached `U`/`d`
(resp. `multdof3_U`/`multdof3_Dinv`, custom `U`/`Dinv`). -/
def applyStepB (M : ABModel) (tau : ℕ → ℚ) (i : ℕ)
    (st : ABSweepState) : ABSweepState :=
  match M.joint i with
  | .spherical S3 U3 Dinv =>
    let u3 : Fin 3 → ℚ :=
      (fun z : Fin 3 => tau (M.q_index i + z.val)) - S3.transpose *ᵥ st.pA i
    let st1 : ABSweepState :=
      { st with
        uv := Function.update st.uv i
          (fun z => if h : z < 3 then u3 ⟨z, h⟩ else 0) }
    if M.lam i = 0 then st1 else
      let Ia := st1.IA i - U3 * Dinv * U3.transpose
      let pa := st1.pA i + Ia *ᵥ M.c i + U3 *ᵥ (Dinv *ᵥ u3)
      { st1 with
        IA := Function.update st1.IA (M.lam i)
          (st1.IA (M.lam i) + (M.X_lambda i).transpose * Ia * M.X_lambda i)
        pA := Function.update st1.pA (M.lam i)
          (st1.pA (M.lam i) + (M.X_lambda i).transpose *ᵥ pa) }
  | .single S U d =>
    let u := tau (M.q_index i) - S ⬝ᵥ st.pA i
    let st1 : ABSweepState :=
      { st with
        uv := Function.update st.uv i
          (fun z => if z = 0 then u else 0) }
    if M.lam i = 0 then st1 else
      let Ia := st1.IA i - Matrix.of (fun r c => U r * (U c / d))
      let pa := st1.pA i + Ia *ᵥ M.c i + (u / d) • U
      { st1 with
        IA := Function.update st1.IA (M.lam i)
          (st1.IA (M.lam i) + (M.X_lambda i).transpose * Ia * M.X_lambda i)
        pA := Function.update st1.pA (M.lam i)
          (st1.pA (M.lam i) + (M.X_lambda i).transpose *ᵥ pa) }
  | .customJ dof S U Dinv =>
    let u : Fin dof → ℚ :=
      (fun z : Fin dof => tau (M.q_index i + z.val)) - S.transpose *ᵥ st.pA i
    let st1 : ABSweepState :=
      { st with
        uv := Function.update st.uv i
          (fun z => if h : z < dof then u ⟨z, h⟩ else 0) }
    if M.lam i = 0 then st1 else
      let Ia := st1.IA i - U * Dinv * U.transpose
      let pa := st1.pA i + Ia *ᵥ M.c i + U *ᵥ (Dinv *ᵥ u)
      { st1 with
        IA := Function.update st1.IA (M.lam i)
          (st1.IA (M.lam i) + (M.X_lambda i).transpose * Ia * M.X_lambda i)
        pA := Function.update st1.pA (M.lam i)
          (st1.pA (M.lam i) + (M.X_lambda i).transpose *ᵥ pa) }

/-- The backward sweep (`for i = mBodies.size()-1; i > 0; i--`):
`applyBackward M tau k st` processes bodies `k, k-1, …, 1` in that
order. -/
def applyBackward (M : ABModel) (tau : ℕ → ℚ) :
    ℕ → ABSweepState → ABSweepState
  | 0, st => st
  | k + 1, st => applyBackward M tau k (applyStepB M tau (k + 1) st)

/-- Writing `vals` into the `dof` consecutive generalized-coordinate
slots starting at `q` of an acceleration array
(`QDDot[q_index + z] = qdd_temp[z]`). -/
def writeRange (q dof : ℕ) (vals : ℕ → ℚ) (old : ℕ → ℚ) : ℕ → ℚ :=
  fun idx => if q ≤ idx ∧ idx < q + dof then vals (idx - q) else old idx

/-- The forward sweep (`for i = 1; i < mBodies.size(); i++`), shared
shape of both recursions: `forwardFold step k acc` processes bodies
`1, …, k` in that order, threading the spatial-acceleration array and
the output acceleration array. -/
def forwardFold
    (step : ℕ → (ℕ → Fin 6 → ℚ) × (ℕ → ℚ) → (ℕ → Fin 6 → ℚ) × (ℕ → ℚ)) :
    ℕ → (ℕ → Fin 6 → ℚ) × (ℕ → ℚ) → (ℕ → Fin 6 → ℚ) × (ℕ → ℚ)
  | 0, acc => acc
  | k + 1, acc => step (k + 1) (forwardFold step k acc)

/-- One iteration of the forward sweep of
`ForwardDynamicsApplyConstraintForces` (Constraints.cc:1283-1322) at
body `i`, acting on the pair of the spatial-acceleration array
`model.a` and the output `QDDot`:
`a[i] = X_lambda[i]·a[lambda[i]] + c[i]`, the joint branch solves for
the joint accelerations from the cached `d` / `Dinv` and writes them
into `QDDot`, and `a[i]` is extended by the joint motion. -/
def applyStepF (M : ABModel) (uv : ℕ → ℕ → ℚ) (i : ℕ)
    (acc : (ℕ → Fin 6 → ℚ) × (ℕ → ℚ)) : (ℕ → Fin 6 → ℚ) × (ℕ → ℚ) :=
  let ai := M.X_lambda i *ᵥ acc.1 (M.lam i) + M.c i
  match M.joint i with
  | .spherical S3 U3 Dinv =>
    let qdd := Dinv *ᵥ ((fun z : Fin 3 => uv i z.val) - U3.transpose *ᵥ ai)
    (Function.update acc.1 i (ai + S3 *ᵥ qdd),
      writeRange (M.q_index i) 3
        (fun z => if h : z < 3 then qdd ⟨z, h⟩ else 0) acc.2)
  | .single S U d =>
    let qdd := (1 / d) * (uv i 0 - U ⬝ᵥ ai)
    (Function.update acc.1 i (ai + qdd • S),
      writeRange (M.q_index i) 1 (fun _ => qdd) acc.2)
  | .customJ dof S U Dinv =>
    let qdd := Dinv *ᵥ ((fun z : Fin dof => uv i z.val) - U.transpose *ᵥ ai)
    (Function.update acc.1 i (ai + S *ᵥ qdd),
      writeRange (M.q_index i) dof
        (fun z => if h : z < dof then qdd ⟨z, h⟩ else 0) acc.2)

/-- Embedding of the in-src `ForwardDynamicsApplyConstraintForces`
(Constraints.cc:1156-1325): initialise `IA`/`pA` from the body
inertias, velocities and external forces, run the backward sweep, seat
`a[0] = (0,0,0,-gravity)` (Constraints.cc:1278-1281) and run the
forward sweep; the result is the written `QDDot` array (indices
outside the written `q_index` ranges keep the zero initial value). -/
def ForwardDynamicsApplyConstraintForces (M : ABModel) (tau : ℕ → ℚ)
    (fext : ℕ → Fin 6 → ℚ) : ℕ → ℚ :=
  let stB := applyBackward M tau M.nb (initApply M fext)
  let aInit : ℕ → Fin 6 → ℚ := fun b =>
    if b = 0 then mkSpatial 0 (fun j => -(M.gravity j)) else 0
  (forwardFold (applyStepF M stB.uv) M.nb (aInit, fun _ => 0)).2

/-- State of the backward sweep of
`ForwardDynamicsAccelerationDeltas`: the delta bias forces `CS.d_pA`
and the per-joint delta `u` values (`CS.d_u`, `CS.d_multdof3_u`, the
custom joint's `d_u`, stored uniformly as a dof-indexed function), all
zeroed on entry (Constraints.cc:1350-1358). -/
structure DeltaSweepState where
  d_pA : ℕ → Fin 6 → ℚ
  duv : ℕ → ℕ → ℚ

/-- One iteration of the backward sweep of
`ForwardDynamicsAccelerationDeltas` (Constraints.cc:1360-1405) at body
`i`: at `i = body_id` the delta bias is first seeded with the
adjoint-mapped test force (`d_pA[i] = -X_base[i].applyAdjoint(f_t[i])`),
then the joint branch computes the delta `u` and, when the parent is
not the base, folds the delta bias into it. -/
def deltaStepB (M : ABModel) (body_id : ℕ) (f : ℕ → Fin 6 → ℚ) (i : ℕ)
    (st : DeltaSweepState) : DeltaSweepState :=
  let st0 := if i = body_id then
      { st with d_pA := Function.update st.d_pA i (-(M.X_base_adj i *ᵥ f i)) }
    else st
  match M.joint i with
  | .spherical S3 U3 Dinv =>
    let du3 : Fin 3 → ℚ := -(S3.transpose *ᵥ st0.d_pA i)
    let st1 :=
      { st0 with
        duv := Function.update st0.duv i
          (fun z => if h : z < 3 then du3 ⟨z, h⟩ else 0) }
    if M.lam i = 0 then st1 else
      { st1 with
        d_pA := Function.update st1.d_pA (M.lam i)
          (st1.d_pA (M.lam i) + (M.X_lambda i).transpose *ᵥ
            (st1.d_pA i + U3 *ᵥ (Dinv *ᵥ du3))) }
  | .single S U d =>
    let du := -(S ⬝ᵥ st0.d_pA i)
    let st1 :=
      { st0 with
        duv := Function.update st0.duv i
          (fun z => if z = 0 then du else 0) }
    if M.lam i = 0 then st1 else
      { st1 with
        d_pA := Function.update st1.d_pA (M.lam i)
          (st1.d_pA (M.lam i) + (M.X_lambda i).transpose *ᵥ
            (st1.d_pA i + (du / d) • U)) }
  | .customJ dof S U Dinv =>
    let du : Fin dof → ℚ := -(S.transpose *ᵥ st0.d_pA i)
    let st1 :=
      { st0 with
        duv := Function.update st0.duv i
          (fun z => if h : z < dof then du ⟨z, h⟩ else 0) }
    if M.lam i = 0 then st1 else
      { st1 with
        d_pA := Function.update st1.d_pA (M.lam i)
          (st1.d_pA (M.lam i) + (M.X_lambda i).transpose *ᵥ
            (st1.d_pA i + U *ᵥ (Dinv *ᵥ du))) }

/-- The backward sweep of the deltas recursion
(`for i = body_id; i > 0; i--`): `deltaBackward M body_id f k st`
processes bodies `k, …, 1`; it is entered with `k = body_id`, so
bodies above `body_id` keep their zeroed state. -/
def deltaBackward (M : ABModel) (body_id : ℕ) (f : ℕ → Fin 6 → ℚ) :
    ℕ → DeltaSweepState → DeltaSweepState
  | 0, st => st
  | k + 1, st =>
    deltaBackward M body_id f k (deltaStepB M body_id f (k + 1) st)

/-- One iteration of the forward sweep of
`ForwardDynamicsAccelerationDeltas` (Constraints.cc:1421-1461) at body
`i`: `Xa = X_lambda[i]·d_a[lambda[i]]` (no velocity-product term
here), the joint branch solves for the delta accelerations, writes
them into `QDDot_t` and sets `d_a[i] = Xa + S·qdd`.  The source's side
writes to `model.a[i]` (Constraints.cc:1435, 1455) are dead in the
Kokkevis loop — `model.a` is recomputed by `UpdateKinematicsCustom`
before it is next read — and are not carried. -/
def deltaStepF (M : ABModel) (duv : ℕ → ℕ → ℚ) (i : ℕ)
    (acc : (ℕ → Fin 6 → ℚ) × (ℕ → ℚ)) : (ℕ → Fin 6 → ℚ) × (ℕ → ℚ) :=
  let Xa := M.X_lambda i *ᵥ acc.1 (M.lam i)
  match M.joint i with
  | .spherical S3 U3 Dinv =>
    let qdd := Dinv *ᵥ ((fun z : Fin 3 => duv i z.val) - U3.transpose *ᵥ Xa)
    (Function.update acc.1 i (Xa + S3 *ᵥ qdd),
      writeRange (M.q_index i) 3
        (fun z => if h : z < 3 then qdd ⟨z, h⟩ else 0) acc.2)
  | .single S U d =>
    let qdd := (duv i 0 - U ⬝ᵥ Xa) / d
    (Function.update acc.1 i (Xa + qdd • S),
      writeRange (M.q_index i) 1 (fun _ => qdd) acc.2)
  | .customJ dof S U Dinv =>
    let qdd := Dinv *ᵥ ((fun z : Fin dof => duv i z.val) - U.transpose *ᵥ Xa)
    (Function.update acc.1 i (Xa + S *ᵥ qdd),
      writeRange (M.q_index i) dof
        (fun z => if h : z < dof then qdd ⟨z, h⟩ else 0) acc.2)

/-- Embedding of the in-src `ForwardDynamicsAccelerationDeltas`
(Constraints.cc:1336-1462): zero the delta workspaces, run the
backward sweep down from `body_id`, seat `d_a[0] = model.a[0]`
(Constraints.cc:1418-1419; the preceding `QDDot_t[0] = 0.` write is
the zero initial value of the output array) and run the forward sweep
over all bodies; the result is the written `QDDot_t` array. -/
def ForwardDynamicsAccelerationDeltas (M : ABModel) (body_id : ℕ)
    (f : ℕ → Fin 6 → ℚ) : ℕ → ℚ :=
  let stB := deltaBackward M body_id f body_id
    { d_pA := fun _ => 0, duv := fun _ _ => 0 }
  let aInit : ℕ → Fin 6 → ℚ := fun b => if b = 0 then M.a0 else 0
  (forwardFold (deltaStepF M stB.duv) M.nb (aInit, fun _ => 0)).2

/-- The first `n` entries of a generalized-coordinate array. -/
def restrictFin (n : ℕ) (f : ℕ → ℚ) : Fin n → ℚ := fun i => f i.val

/-- A length-`n` vector as a generalized-coordinate array. -/
def extendFin {n : ℕ} (v : Fin n → ℚ) : ℕ → ℚ :=
  fun i => if h : i < n then v ⟨i, h⟩ else 0

/-- Spec-modelled per-row data of the contact constraints: for each of
the `m` rows, the row of the constraint Jacobian `G` and the bias
`beta` of the out-of-src `calcPointAccelerations` contract, the
test-force spatial vector `f_t[r]` of the out-of-src
`calcPointForceJacobian`, and the id `getBodyIds()[0]` of the
constrained body. -/
structure KokkevisData (n m : ℕ) where
  G : Matrix (Fin m) (Fin n) ℚ
  beta : Fin m → ℚ
  f_t : Fin m → Fin 6 → ℚ
  rowBodyId : Fin m → ℕ

/-- The acceleration delta of test row `p`: the in-src deltas
recursion run with `f_ext_constraints[movable_body_id] = f_t[ci+j]`
and every other entry zero (the source sets exactly that entry at
Constraints.cc:1560 and clears it again at line 1574; the recursion
reads the force array only at `body_id`). -/
def kokkevisDelta {n m : ℕ} (M : ABModel) (KD : KokkevisData n m)
    (p : Fin m) : Fin n → ℚ :=
  let mb := GetMovableBodyId M (KD.rowBodyId p)
  restrictFin n (ForwardDynamicsAccelerationDeltas M mb
    (fun b => if b = mb then KD.f_t p else 0))

/-- The coupling matrix assembled by the test-force loops
(Constraints.cc:1542-1606): row index is the test-force row `ci+j`,
column index the measured row `cj+k`, and the entry is the measured
direction dotted with the difference of the perturbed
(`QDDot_t + QDDot_0`, with `QDDot_t` computed by the in-src deltas
recursion, Constraints.cc:1565-1576) and baseline point
accelerations. -/
def kokkevisK {n m : ℕ} (M : ABModel) (KD : KokkevisData n m)
    (H : Matrix (Fin n) (Fin n) ℚ) (CBias Tau : Fin n → ℚ) :
    Matrix (Fin m) (Fin m) ℚ :=
  Matrix.of fun p q =>
    pointAccelRow KD.G KD.beta
        (kokkevisQDDot0 H CBias Tau + kokkevisDelta M KD p) q
      - pointAccelRow KD.G KD.beta (kokkevisQDDot0 H CBias Tau) q

/-- The right-hand side `a` assembled by the initial loop
(Constraints.cc:1513-1535): the baseline constraint-space point
acceleration error. -/
def kokkevisAErr {n m : ℕ} (H : Matrix (Fin n) (Fin n) ℚ)
    (G : Matrix (Fin m) (Fin n) ℚ) (beta : Fin m → ℚ)
    (CBias Tau : Fin n → ℚ) : Fin m → ℚ :=
  fun r => pointAccelRow G beta (kokkevisQDDot0 H CBias Tau) r

/-- The external-force accumulation loop (Constraints.cc:1638-1656):
`f_ext_constraints[movable_body_id] -= f_t[ci+k] * force[ci+k]`,
summed over all rows whose constrained body resolves to the given
movable body. -/
def kokkevisFExt {n m : ℕ} (M : ABModel) (KD : KokkevisData n m)
    (force : Fin m → ℚ) : ℕ → Fin 6 → ℚ :=
  fun b => -(∑ r : Fin m,
    if GetMovableBodyId M (KD.rowBodyId r) = b then force r • KD.f_t r else 0)

/-- Embedding of `ForwardDynamicsContactsKokkevis`
(Constraints.cc:1471-1666): compute the baseline acceleration (the
spec-modelled out-of-src `ForwardDynamics`) and the per-row baseline
point-acceleration errors, assemble `K` by running the in-src deltas
recursion on each row's test force, solve `K·force = a` with the
configured dense solver (fatal on an unrecognised selector),
accumulate the resolved forces as external forces, and run the in-src
force-application recursion on them to obtain the final `QDDot`.
Returns `(QDDot, force)`, `force` being what is stored in the
registry's force array. -/
def ForwardDynamicsContactsKokkevis {n m : ℕ} (M : ABModel)
    (KD : KokkevisData n m) (H : Matrix (Fin n) (Fin n) ℚ)
    (CBias Tau : Fin n → ℚ) (ls : LinearSolver) :
    Except RbdlError ((Fin n → ℚ) × (Fin m → ℚ)) := do
  let force ← dispatchSolve ls (kokkevisK M KD H CBias Tau)
    (kokkevisAErr H KD.G KD.beta CBias Tau)
  let QDDot := restrictFin n (ForwardDynamicsApplyConstraintForces M
    (extendFin Tau) (kokkevisFExt M KD force))
  return (QDDot, force)

theorem transpose_eq_self_of_factor {n : ℕ}
    {H L : Matrix (Fin n) (Fin n) ℚ} (hH : H = L.transpose * L) :
    H.transpose = H := by
  rw [hH, Matrix.transpose_mul, Matrix.transpose_transpose]

theorem det_ne_zero_of_factor {n : ℕ}
    {H L : Matrix (Fin n) (Fin n) ℚ} (hH : H = L.transpose * L)
    (hL : L.det ≠ 0) : H.det ≠ 0 := by
  rw [hH, Matrix.det_mul, Matrix.det_transpose]
  exact mul_ne_zero hL hL

/-- When the cached articulated-body state realises the mass-matrix
response to the per-row test forces (the contract of the out-of-src
baseline pass that fills it), the assembled coupling matrix is the
transposed Gram-type matrix `(G·H⁻¹·Gᵀ)ᵀ`. -/
theorem kokkevisK_eq {n m : ℕ} (M : ABModel) (KD : KokkevisData n m)
    {H L : Matrix (Fin n) (Fin n) ℚ} (CBias Tau : Fin n → ℚ)
    (hH : H = L.transpose * L) (hL : L.det ≠ 0)
    (hdelta : ∀ p : Fin m,
      H *ᵥ kokkevisDelta M KD p = KD.G.transpose *ᵥ Pi.single p 1) :
    kokkevisK M KD H CBias Tau
      = (KD.G * H⁻¹ * KD.G.transpose).transpose := by
  have hdet := det_ne_zero_of_factor hH hL
  ext p q
  show pointAccelRow KD.G KD.beta
        (kokkevisQDDot0 H CBias Tau + kokkevisDelta M KD p) q
      - pointAccelRow KD.G KD.beta (kokkevisQDDot0 H CBias Tau) q
    = (KD.G * H⁻¹ * KD.G.transpose) q p
  unfold pointAccelRow
  rw [mulVec_add]
  have hd : kokkevisDelta M KD p
      = H⁻¹ *ᵥ (KD.G.transpose *ᵥ Pi.single p 1) := by
    rw [← hdelta p, mulVec_mulVec,
      Matrix.nonsing_inv_mul _ (isUnit_iff_ne_zero.2 hdet), one_mulVec]
  rw [hd, mulVec_mulVec, mulVec_mulVec]
  simp only [Matrix.mulVec_single, Pi.add_apply]
  ring

/-- Positive definiteness of `G·H⁻¹·Gᵀ`. -/
theorem kokkevis_B_det_ne_zero {n m : ℕ}
    {H L : Matrix (Fin n) (Fin n) ℚ} {G : Matrix (Fin m) (Fin n) ℚ}
    (hH : H = L.transpose * L) (hL : L.det ≠ 0) (hG : FullRowRank G) :
    (G * H⁻¹ * G.transpose).det ≠ 0 := by
  have hdet := det_ne_zero_of_factor hH hL
  have hLT : L.transpose.det ≠ 0 := by rwa [Matrix.det_transpose]
  have hLTunit : IsUnit L.transpose :=
    (Matrix.isUnit_iff_isUnit_det _).2 (isUnit_iff_ne_zero.2 hLT)
  have hinv : H⁻¹ = L⁻¹ * L.transpose⁻¹ := by
    rw [hH, Matrix.mul_inv_rev]
  intro h0
  obtain ⟨w, hw0, hw⟩ := (Matrix.exists_mulVec_eq_zero_iff).2 h0
  have hdot : w ⬝ᵥ ((G * H⁻¹ * G.transpose) *ᵥ w) = 0 := by
    rw [hw, dotProduct_zero]
  have hexp : w ⬝ᵥ ((G * H⁻¹ * G.transpose) *ᵥ w)
      = (L.transpose⁻¹ *ᵥ (G.transpose *ᵥ w))
        ⬝ᵥ (L.transpose⁻¹ *ᵥ (G.transpose *ᵥ w)) := by
    rw [hinv]
    rw [show G * (L⁻¹ * L.transpose⁻¹) * G.transpose
        = G * (L⁻¹ * (L.transpose⁻¹ * G.transpose)) from by
      simp [Matrix.mul_assoc]]
    rw [← mulVec_mulVec, ← mulVec_mulVec, ← mulVec_mulVec]
    rw [dotProduct_mulVec, ← mulVec_transpose, dotProduct_mulVec,
      ← mulVec_transpose, Matrix.transpose_nonsing_inv]
  rw [hexp] at hdot
  have hu0 : L.transpose⁻¹ *ᵥ (G.transpose *ᵥ w) = 0 :=
    dotProduct_self_eq_zero.1 hdot
  have hGw : G.transpose *ᵥ w = 0 := by
    have h : L.transpose *ᵥ (L.transpose⁻¹ *ᵥ (G.transpose *ᵥ w))
        = L.transpose *ᵥ (0 : Fin n → ℚ) := by rw [hu0]
    rw [mulVec_mulVec, Matrix.mul_nonsing_inv _ (isUnit_iff_ne_zero.2 hLT),
      one_mulVec, mulVec_zero] at h
    exact h
  exact hw0 (hG w hGw)

/-- C5: on a contact-only system whose spec-modelled row data is `KD`
(the direct path's constraint bias is then `gamma = -beta`, the value
for which the constraint acceleration error vanishes), and whose
cached articulated-body state is consistent with the assembled `H`
and `G` — the in-src deltas recursion returns the mass-matrix
response `H⁻¹·Gᵀ·e_p` to each row's test force, and the in-src
force-application recursion returns the accelerations solving
`H·QDDot = Tau - CBias - Gᵀ·force` for the accumulated constraint
forces; both hypotheses are the cached-state contract of the
out-of-src `ForwardDynamics` / `UpdateKinematicsCustom` baseline pass
(§4.7, §6) and are discharged in the witness by evaluating the
embedded recursions on a concrete model —
`ForwardDynamicsContactsKokkevis` and
`ForwardDynamicsConstraintsDirect` compute the same `QDDot`; the
Kokkevis force array holds the negation of the direct path's stored
force. -/
theorem kokkevis_direct_agreement {n m : ℕ} (M : ABModel)
    (KD : KokkevisData n m) {H L : Matrix (Fin n) (Fin n) ℚ}
    (CBias Tau : Fin n → ℚ) {ls : LinearSolver}
    (hH : H = L.transpose * L) (hL : L.det ≠ 0) (hG : FullRowRank KD.G)
    (hls : ls.isValid = true)
    (hdelta : ∀ p : Fin m,
      H *ᵥ kokkevisDelta M KD p = KD.G.transpose *ᵥ Pi.single p 1)
    (happly : ∀ force : Fin m → ℚ,
      H *ᵥ restrictFin n (ForwardDynamicsApplyConstraintForces M
          (extendFin Tau) (kokkevisFExt M KD force))
        = Tau - CBias - KD.G.transpose *ᵥ force) :
    ∃ QDDot force,
      ForwardDynamicsContactsKokkevis M KD H CBias Tau ls
        = .ok (QDDot, force) ∧
      ∃ lambda,
        ForwardDynamicsConstraintsDirect H KD.G (Tau - CBias) (-KD.beta) ls
          = .ok (QDDot, lambda) ∧ force = -lambda := by
  have hdet := det_ne_zero_of_factor hH hL
  have hkkt := kkt_det_ne_zero hH hL hG
  obtain ⟨qd, lam, hdir, hk1, hk2⟩ :=
    @forwardDynamicsConstraintsDirect_kkt n m H KD.G (Tau - CBias)
      (-KD.beta) ls hkkt hls
  have hKmat := kokkevisK_eq M KD CBias Tau hH hL hdelta
  have hKsymm : (KD.G * H⁻¹ * KD.G.transpose).transpose
      = KD.G * H⁻¹ * KD.G.transpose := by
    have hHT : H.transpose = H := transpose_eq_self_of_factor hH
    have hHinvT : H⁻¹.transpose = H⁻¹ := by
      rw [Matrix.transpose_nonsing_inv, hHT]
    rw [Matrix.transpose_mul, Matrix.transpose_mul, Matrix.transpose_transpose,
      hHinvT, Matrix.mul_assoc]
  have hKdet : (kokkevisK M KD H CBias Tau).det ≠ 0 := by
    rw [hKmat, hKsymm]
    exact kokkevis_B_det_ne_zero hH hL hG
  -- the baseline acceleration is H⁻¹ (Tau - CBias)
  have hQ0 : H *ᵥ kokkevisQDDot0 H CBias Tau = Tau - CBias :=
    linSolve_mulVec hdet _
  -- the Kokkevis force solves K·force = a, and -lam also does
  have hGlam : KD.G.transpose *ᵥ lam = H *ᵥ qd - (Tau - CBias) := by
    rw [← hk1]; abel
  have hKneg : (kokkevisK M KD H CBias Tau) *ᵥ (-lam)
      = kokkevisAErr H KD.G KD.beta CBias Tau := by
    rw [hKmat, hKsymm]
    funext r
    have hBlam : (KD.G * H⁻¹ * KD.G.transpose) *ᵥ lam
        = KD.G *ᵥ qd - KD.G *ᵥ kokkevisQDDot0 H CBias Tau := by
      rw [Matrix.mul_assoc, ← mulVec_mulVec, ← mulVec_mulVec, hGlam]
      have h1 : H⁻¹ *ᵥ (H *ᵥ qd) = qd := by
        rw [mulVec_mulVec, Matrix.nonsing_inv_mul _ (isUnit_iff_ne_zero.2 hdet),
          one_mulVec]
      have h2 : H⁻¹ *ᵥ (Tau - CBias) = kokkevisQDDot0 H CBias Tau := by
        rw [← hQ0, mulVec_mulVec,
          Matrix.nonsing_inv_mul _ (isUnit_iff_ne_zero.2 hdet), one_mulVec]
      rw [mulVec_sub, h1, h2, mulVec_sub]
    rw [mulVec_neg, hBlam]
    unfold kokkevisAErr pointAccelRow
    have hGqd : KD.G *ᵥ qd = -KD.beta := hk2
    rw [hGqd]
    simp [Pi.neg_apply, Pi.sub_apply]
  have hforce : linSolve (kokkevisK M KD H CBias Tau)
      (kokkevisAErr H KD.G KD.beta CBias Tau) = -lam :=
    linSolve_unique hKdet hKneg
  refine ⟨qd, -lam, ?_, lam, hdir, rfl⟩
  unfold ForwardDynamicsContactsKokkevis
  rw [dispatchSolve_valid hls]
  have hunit : IsUnit H :=
    (Matrix.isUnit_iff_isUnit_det _).2 (isUnit_iff_ne_zero.2 hdet)
  have hfinal : restrictFin n (ForwardDynamicsApplyConstraintForces M
      (extendFin Tau) (kokkevisFExt M KD (linSolve (kokkevisK M KD H CBias Tau)
        (kokkevisAErr H KD.G KD.beta CBias Tau)))) = qd := by
    rw [hforce]
    have hq : H *ᵥ qd = Tau - CBias - KD.G.transpose *ᵥ (-lam) := by
      rw [mulVec_neg, sub_neg_eq_add, hGlam]
      abel
    apply (Matrix.mulVec_injective_iff_isUnit).2 hunit
    rw [happly (-lam), hq]
  show Except.ok (restrictFin n (ForwardDynamicsApplyConstraintForces M
      (extendFin Tau) (kokkevisFExt M KD (linSolve (kokkevisK M KD H CBias Tau)
        (kokkevisAErr H KD.G KD.beta CBias Tau)))),
      linSolve (kokkevisK M KD H CBias Tau)
        (kokkevisAErr H KD.G KD.beta CBias Tau))
    = Except.ok (qd, -lam)
  rw [hfinal, hforce]

/-- The witness articulated-body model: one movable body on a 1-DoF
prismatic-type joint with identity transforms and spatial inertia,
zero velocity and gravity; the cached `U = I·S` and `d = S·U` are the
values the baseline pass computes for it, making the cached state
consistent with the 1×1 mass matrix `H = SᵀIS = 1`. -/
def kwS : Fin 6 → ℚ := ![0, 0, 0, 1, 0, 0]

def kwModel : ABModel where
  nb := 1
  lam := fun _ => 0
  X_lambda := fun _ => 1
  X_base_adj := fun _ => 1
  I := fun _ => 1
  v := fun _ => 0
  c := fun _ => 0
  joint := fun _ => .single kwS kwS 1
  q_index := fun _ => 0
  gravity := fun _ => 0
  a0 := 0
  isFixedBodyId := fun _ => false
  fixed_body_discriminator := 0
  movableParent := fun i => i

/-- The witness row data: one contact row on the movable body, its
direction aligned with the joint axis, so the row Jacobian is `1` and
the test-force spatial vector is the joint axis itself. -/
def kwData : KokkevisData 1 1 where
  G := !![1]
  beta := ![0]
  f_t := fun _ => kwS
  rowBodyId := fun _ => 1

/-- C5 witness: the one-dof, one-contact-row system on the concrete
model `kwModel`; the cached-state hypotheses are discharged by
evaluating the two embedded in-src recursions. -/
theorem kokkevis_direct_agreement_witness :
    ∃ QDDot force,
      ForwardDynamicsContactsKokkevis kwModel kwData
          (1 : Matrix (Fin 1) (Fin 1) ℚ) 0 ![2] .LinearSolverPartialPivLU
        = .ok (QDDot, force) ∧
      ∃ lambda,
        ForwardDynamicsConstraintsDirect (1 : Matrix (Fin 1) (Fin 1) ℚ)
            kwData.G ((![2] : Fin 1 → ℚ) - 0) (-kwData.beta)
            .LinearSolverPartialPivLU
          = .ok (QDDot, lambda) ∧ force = -lambda :=
  @kokkevis_direct_agreement 1 1 kwModel kwData
    (1 : Matrix (Fin 1) (Fin 1) ℚ) (1 : Matrix (Fin 1) (Fin 1) ℚ)
    0 ![2] .LinearSolverPartialPivLU
    (by simp)
    (by simp)
    (by
      intro v hv
      have h0 := congrFun hv 0
      simp [kwData, Matrix.mulVec, Matrix.dotProduct, Fin.sum_univ_succ,
        Matrix.transpose_apply] at h0
      funext j
      fin_cases j
      simpa using h0)
    rfl
    (by
      intro p
      fin_cases p
      funext i
      fin_cases i
      simp [kokkevisDelta, GetMovableBodyId, kwModel, kwData, kwS,
        ForwardDynamicsAccelerationDeltas, deltaBackward, deltaStepB,
        deltaStepF, forwardFold, writeRange, restrictFin,
        Function.update, Matrix.mulVec, Matrix.dotProduct,
        Fin.sum_univ_succ, Matrix.one_apply, Matrix.transpose_apply,
        Pi.single_apply])
    (by
      intro force
      funext i
      fin_cases i
      simp [ForwardDynamicsApplyConstraintForces, initApply, applyBackward,
        applyStepB, applyStepF, forwardFold, writeRange, restrictFin,
        extendFin, kokkevisFExt, GetMovableBodyId, kwModel, kwData, kwS,
        crossf, cross3, sAng, sLin, mkSpatial, Function.update,
        Matrix.mulVec, Matrix.dotProduct, Fin.sum_univ_succ,
        Matrix.one_apply, Matrix.transpose_apply])

/-- C8: for every solve path that dispatches on the linear-solver
selector — the dense direct KKT solve, the null-space solve, the
Kokkevis K-matrix solve, and `SolveLinearSystem` — a selector value
outside the three recognised factorizations hits the fatal `default:`
branch and no result is produced. -/
theorem invalidSolver_fatal {n m k : ℕ} (ls : LinearSolver)
    (hbad : ls.isValid = false) :
    (∀ (H : Matrix (Fin n) (Fin n) ℚ) (G : Matrix (Fin m) (Fin n) ℚ) c gamma,
      SolveConstrainedSystemDirect H G c gamma ls
        = .error .invalidLinearSolver) ∧
    (∀ (H : Matrix (Fin n) (Fin n) ℚ) (G : Matrix (Fin m) (Fin n) ℚ) c gamma
        (Y : Matrix (Fin n) (Fin m) ℚ) (Z : Matrix (Fin n) (Fin k) ℚ),
      SolveConstrainedSystemNullSpace H G c gamma Y Z ls
        = .error .invalidLinearSolver) ∧
    (∀ (M : ABModel) (KD : KokkevisData n m)
        (H : Matrix (Fin n) (Fin n) ℚ) (CBias Tau : Fin n → ℚ),
      ForwardDynamicsContactsKokkevis M KD H CBias Tau ls
        = .error .invalidLinearSolver) ∧
    (∀ (A : Matrix (Fin n) (Fin n) ℚ) (b : Fin n → ℚ),
      SolveLinearSystem A b ls = .error .invalidLinearSolver) := by
  refine ⟨?_, ?_, ?_, ?_⟩
  · intro H G c gamma
    unfold SolveConstrainedSystemDirect
    rw [dispatchSolve_invalid hbad]
  · intro H G c gamma Y Z
    unfold SolveConstrainedSystemNullSpace
    rw [dispatchSolve_invalid hbad]
    rfl
  · intro M KD H CBias Tau
    unfold ForwardDynamicsContactsKokkevis
    rw [dispatchSolve_invalid hbad]
    rfl
  · intro A b
    unfold SolveLinearSystem
    rw [dispatchSolve_invalid hbad]

/-- C8 witness: the out-of-range selector value 7 on one-dimensional
systems. -/
theorem invalidSolver_fatal_witness :
    (∀ (H : Matrix (Fin 1) (Fin 1) ℚ) (G : Matrix (Fin 1) (Fin 1) ℚ) c gamma,
      SolveConstrainedSystemDirect H G c gamma (.LinearSolverOther 7)
        = .error .invalidLinearSolver) ∧
    (∀ (H : Matrix (Fin 1) (Fin 1) ℚ) (G : Matrix (Fin 1) (Fin 1) ℚ) c gamma
        (Y : Matrix (Fin 1) (Fin 1) ℚ) (Z : Matrix (Fin 1) (Fin 0) ℚ),
      SolveConstrainedSystemNullSpace H G c gamma Y Z (.LinearSolverOther 7)
        = .error .invalidLinearSolver) ∧
    (∀ (M : ABModel) (KD : KokkevisData 1 1)
        (H : Matrix (Fin 1) (Fin 1) ℚ) (CBias Tau : Fin 1 → ℚ),
      ForwardDynamicsContactsKokkevis M KD H CBias Tau (.LinearSolverOther 7)
        = .error .invalidLinearSolver) ∧
    (∀ (A : Matrix (Fin 1) (Fin 1) ℚ) (b : Fin 1 → ℚ),
      SolveLinearSystem A b (.LinearSolverOther 7)
        = .error .invalidLinearSolver) :=
  invalidSolver_fatal (.LinearSolverOther 7) rfl

/-!  Constraint registry: `ConstraintSet` bookkeeping
(Constraints.cc:41-558).

Vectors of varying run-time size are embedded as lists (per-row
arrays) or as total functions ℕ → ℚ (workspace buffers whose
`setZero()` becomes the constant-zero function); `conservativeResize`
followed by explicit zeroing of the new entries becomes appending
zeros.  The shared-pointer aliasing between `constraints` and the
typed side-arrays `contactConstraints` / `loopConstraints` is embedded
by keeping only the primary ordered list and recovering the typed
views by filtering; mutating the last element of a typed view becomes
`modifyLastContact` / `modifyLastLoop`. -/

/-- A 3-vector of the math library. -/
def Vec3 : Type := Fin 3 → ℚ

/-- A 6-component spatial vector of the math library. -/
def SpatialVec : Type := Fin 6 → ℚ

/-- A spatial transform: rotation `E` and translation `r`. -/
structure SpatialTransformQ where
  E : Matrix (Fin 3) (Fin 3) ℚ
  r : Vec3

/-- Squared Euclidean norm of a 3-vector: `v.norm() < tol` in the
source is embedded as `normSq v < tol * tol` (equivalent for the
positive tolerance `100·epsilon` the source uses). -/
def normSq (v : Vec3) : ℚ := v 0 * v 0 + v 1 * v 1 + v 2 * v 2

/-- State of a `ContactConstraint` object as far as registration is
concerned: body id, body-local point, and the ordered list of appended
world-frame normals (one constraint row per normal). -/
structure ContactData where
  bodyId : ℕ
  bodyPoint : Vec3
  normals : List Vec3

/-- One axis of a `LoopConstraint` with its per-axis enforcement
flags. -/
structure LoopAxis where
  axis : SpatialVec
  positionLevel : Bool
  velocityLevel : Bool

/-- State of a `LoopConstraint` object: body pair, attachment frames,
appended axes (one row per axis), and the Baumgarte settings written
by the `set...` calls after each registration. -/
structure LoopData where
  idPredecessor : ℕ
  idSuccessor : ℕ
  XPredecessor : SpatialTransformQ
  XSuccessor : SpatialTransformQ
  axes : List LoopAxis
  baumgarteEnabled : Bool
  baumgarteTimeConstant : ℚ

/-- A registered constraint object (the element type of
`ConstraintSet::constraints`); custom constraints are represented by
their row count. -/
inductive Constr : Type
  | contact (d : ContactData)
  | loop (d : LoopData)
  | customC (size : ℕ)

/-- Rows contributed to the global constraint space
(`getConstraintSize()`). -/
def Constr.rowCount : Constr → ℕ
  | .contact d => d.normals.length
  | .loop d => d.axes.length
  | .customC size => size

/-- The per-row type tag (`ConstraintType` of the headers). -/
inductive ConstraintType : Type
  | ConstraintTypeContact
  | ConstraintTypeLoop
  | ConstraintTypeCustom
deriving DecidableEq, Repr

/-- Whether a constraint is a contact constraint (membership in the
`contactConstraints` side array). -/
def Constr.isContact : Constr → Bool
  | .contact _ => true
  | _ => false

/-- The last element of the `contactConstraints` side array
(`contactConstraints[contactConstraints.size()-1]`), recovered from
the primary list. -/
def getLastContact : List Constr → Option ContactData
  | [] => none
  | c :: rest =>
    match getLastContact rest with
    | some d => some d
    | none =>
      match c with
      | .contact d => some d
      | .loop _ => none
      | .customC _ => none

/-- Apply a contact-object mutation to a constraint if it is a contact
constraint. -/
def updContact (f : ContactData → ContactData) : Constr → Constr
  | .contact d => .contact (f d)
  | .loop d => .loop d
  | .customC k => .customC k

/-- In-place mutation of the last contact constraint object (the
shared-pointer write `contactConstraints[i]->appendNormalVector`). -/
def modifyLastContact (f : ContactData → ContactData) :
    List Constr → List Constr
  | [] => []
  | c :: rest =>
    if (getLastContact rest).isSome then c :: modifyLastContact f rest
    else updContact f c :: rest

/-- The last element of the `loopConstraints` side array. -/
def getLastLoop : List Constr → Option LoopData
  | [] => none
  | c :: rest =>
    match getLastLoop rest with
    | some d => some d
    | none =>
      match c with
      | .contact _ => none
      | .loop d => some d
      | .customC _ => none

/-- Apply a loop-object mutation to a constraint if it is a loop
constraint. -/
def updLoop (f : LoopData → LoopData) : Constr → Constr
  | .contact d => .contact d
  | .loop d => .loop (f d)
  | .customC k => .customC k

/-- In-place mutation of the last loop constraint object
(`appendConstraintAxis` and the Baumgarte setters). -/
def modifyLastLoop (f : LoopData → LoopData) :
    List Constr → List Constr
  | [] => []
  | c :: rest =>
    if (getLastLoop rest).isSome then c :: modifyLastLoop f rest
    else updLoop f c :: rest

/-- Working-memory cache of the registry (`ConstraintCache`). -/
structure ConstraintCache where
  vecNZeros : ℕ → ℚ
  vecNA : ℕ → ℚ
  vecNB : ℕ → ℚ
  vecNC : ℕ → ℚ
  vecND : ℕ → ℚ
  mat3NA : Fin 3 → ℕ → ℚ
  mat3NB : Fin 3 → ℕ → ℚ
  mat3NC : Fin 3 → ℕ → ℚ
  mat3ND : Fin 3 → ℕ → ℚ
  mat6NA : Fin 6 → ℕ → ℚ
  mat6NB : Fin 6 → ℕ → ℚ
  mat6NC : Fin 6 → ℕ → ℚ
  mat6ND : Fin 6 → ℕ → ℚ
  vec3A : Vec3
  vec3B : Vec3
  vec3C : Vec3
  vec3D : Vec3
  vec3E : Vec3
  vec3F : Vec3
  svecA : SpatialVec
  svecB : SpatialVec
  svecC : SpatialVec
  svecD : SpatialVec
  svecE : SpatialVec
  svecF : SpatialVec
  stA : SpatialTransformQ
  stB : SpatialTransformQ
  stC : SpatialTransformQ
  stD : SpatialTransformQ
  mat3A : Matrix (Fin 3) (Fin 3) ℚ
  mat3B : Matrix (Fin 3) (Fin 3) ℚ
  mat3C : Matrix (Fin 3) (Fin 3) ℚ
  mat3D : Matrix (Fin 3) (Fin 3) ℚ
  mat3E : Matrix (Fin 3) (Fin 3) ℚ
  mat3F : Matrix (Fin 3) (Fin 3) ℚ

/-- The constraint registry (`ConstraintSet`). -/
structure ConstraintSet where
  linear_solver : LinearSolver
  constraints : List Constr
  constraintType : List ConstraintType
  name : List String
  err : List ℚ
  errd : List ℚ
  force : List ℚ
  impulse : List ℚ
  v_plus : List ℚ
  d_multdof3_u : List Vec3
  bound : Bool
  H : ℕ → ℕ → ℚ
  C : ℕ → ℚ
  gamma : ℕ → ℚ
  G : ℕ → ℕ → ℚ
  A : ℕ → ℕ → ℚ
  b : ℕ → ℚ
  x : ℕ → ℚ
  K : ℕ → ℕ → ℚ
  a : ℕ → ℚ
  QDDot_t : ℕ → ℚ
  QDDot_0 : ℕ → ℚ
  f_t : List SpatialVec
  point_accel_0 : List Vec3
  f_ext_constraints : List SpatialVec
  d_pA : List SpatialVec
  d_a : List SpatialVec
  d_u : ℕ → ℚ
  cache : ConstraintCache

/-- Modelled from the spec: `ConstraintSet::size()` (declared in the
public header, not in src) returns the current total constraint row
count, the common length of the per-row arrays. -/
def ConstraintSet.size (s : ConstraintSet) : ℕ := s.constraintType.length

/-- `conservativeResize` to `l.length + k` followed by explicit
zeroing of the `k` new entries (the registration loops always zero
exactly the appended rows). -/
def growZeros (l : List ℚ) (k : ℕ) : List ℚ := l ++ List.replicate k 0

/-- The zero 3-vector. -/
def zeroVec3 : Vec3 := fun _ => 0

/-- The zero spatial vector. -/
def zeroSVec : SpatialVec := fun _ => 0

/-- Embedding of the multi-normal `ConstraintSet::AddContactConstraint`
(Constraints.cc:41-91): appends a new `ContactConstraint` object for
all the given normals, grows every per-row array by the row count with
zeroed entries, pushes one type tag and name per row, and returns
`rowsInG - 1`.  NOTE: this overload performs no bound-state check in
the source. -/
def ConstraintSet.AddContactConstraintMulti (s : ConstraintSet)
    (bodyId : ℕ) (bodyPoint : Vec3) (worldNormals : List Vec3)
    (constraintName : Option String) : ConstraintSet × ℕ :=
  let insertAtRowInG := s.size
  let k := worldNormals.length
  let rowsInG := insertAtRowInG + k
  let nameStr := constraintName.getD ""
  ({ s with
      constraints := s.constraints ++ [.contact ⟨bodyId, bodyPoint, worldNormals⟩]
      err := growZeros s.err k
      errd := growZeros s.errd k
      force := growZeros s.force k
      impulse := growZeros s.impulse k
      v_plus := growZeros s.v_plus k
      d_multdof3_u := List.replicate rowsInG zeroVec3
      constraintType := s.constraintType
        ++ List.replicate k .ConstraintTypeContact
      name := s.name ++ List.replicate k nameStr },
    rowsInG - 1)

/-- Embedding of the single-normal `ConstraintSet::AddContactConstraint`
(Constraints.cc:94-166).  `assert(bound == false)` is the fatal
programming-contract check.  If appending is allowed and the last
registered contact constraint is on the same body with a contact point
within `tol` (`tol` models the source's `epsilon * 100`; the norm
comparison is embedded squared), the new normal is appended to that
object and the per-row arrays grow by one row; otherwise the
multi-normal overload is called with the singleton normal list. -/
def ConstraintSet.AddContactConstraint (s : ConstraintSet)
    (body_id : ℕ) (body_point : Vec3) (world_normal : Vec3)
    (constraint_name : Option String) (allowConstraintAppending : Bool)
    (tol : ℚ) : Except RbdlError (ConstraintSet × ℕ) :=
  if s.bound then .error .contractViolation
  else
    let insertAtRowInG := s.size
    let rowsInG := insertAtRowInG + 1
    let nameStr := constraint_name.getD ""
    let doMerge : Bool :=
      allowConstraintAppending &&
        match getLastContact s.constraints with
        | some d =>
          d.bodyId == body_id &&
            decide (normSq (fun i => body_point i - d.bodyPoint i) < tol * tol)
        | none => false
    if doMerge then
      .ok ({ s with
          constraints := modifyLastContact
            (fun d => { d with normals := d.normals ++ [world_normal] })
            s.constraints
          constraintType := s.constraintType ++ [.ConstraintTypeContact]
          name := s.name ++ [nameStr]
          err := growZeros s.err 1
          errd := growZeros s.errd 1
          force := growZeros s.force 1
          impulse := growZeros s.impulse 1
          v_plus := growZeros s.v_plus 1
          d_multdof3_u := List.replicate rowsInG zeroVec3 },
        rowsInG - 1)
    else
      .ok (s.AddContactConstraintMulti body_id body_point [world_normal]
        constraint_name)

/-- Componentwise frame comparison of the loop merge check
(Constraints.cc:197-217): the frames count as numerically identical
when no translation or rotation entry differs by more than `tol`. -/
def framesClose (X1 X2 : SpatialTransformQ) (tol : ℚ) : Bool :=
  decide ((∀ i : Fin 3, |X1.r i - X2.r i| ≤ tol) ∧
    ∀ i j : Fin 3, |X1.E i j - X2.E i j| ≤ tol)

/-- Embedding of the single-axis `ConstraintSet::AddLoopConstraint`
(Constraints.cc:169-274).  Fatal on a bound set.  If appending is
allowed and the last registered loop constraint connects the same body
pair with numerically identical frames, the axis is appended to it;
otherwise a new `LoopConstraint` object is created.  In both cases the
Baumgarte settings are then written to that (merged or new, in either
case last) loop constraint and one row is appended to every per-row
array. -/
def ConstraintSet.AddLoopConstraint (s : ConstraintSet)
    (idPredecessor idSuccessor : ℕ)
    (XPredecessor XSuccessor : SpatialTransformQ)
    (constraintAxisInPredecessor : SpatialVec)
    (enableStab : Bool) (stabParam : ℚ) (constraintName : Option String)
    (allowConstraintAppending positionLevelConstraint
      velocityLevelConstraint : Bool) (tol : ℚ) :
    Except RbdlError (ConstraintSet × ℕ) :=
  if s.bound then .error .contractViolation
  else
    let insertAtRowInG := s.size
    let rowsInG := insertAtRowInG + 1
    let nameStr := constraintName.getD ""
    let doMerge : Bool :=
      allowConstraintAppending &&
        match getLastLoop s.constraints with
        | some d =>
          d.idPredecessor == idPredecessor && d.idSuccessor == idSuccessor &&
            framesClose d.XPredecessor XPredecessor tol &&
            framesClose d.XSuccessor XSuccessor tol
        | none => false
    let constraints1 :=
      if doMerge then
        modifyLastLoop
          (fun d => { d with axes := d.axes ++
            [⟨constraintAxisInPredecessor, positionLevelConstraint,
              velocityLevelConstraint⟩] })
          s.constraints
      else
        s.constraints ++ [.loop
          ⟨idPredecessor, idSuccessor, XPredecessor, XSuccessor,
            [⟨constraintAxisInPredecessor, positionLevelConstraint,
              velocityLevelConstraint⟩],
            false, 0.1⟩]
    let constraints2 := modifyLastLoop
      (fun d => { d with
        baumgarteEnabled := enableStab
        baumgarteTimeConstant := stabParam })
      constraints1
    .ok ({ s with
        constraints := constraints2
        constraintType := s.constraintType ++ [.ConstraintTypeLoop]
        name := s.name ++ [nameStr]
        err := growZeros s.err 1
        errd := growZeros s.errd 1
        force := growZeros s.force 1
        impulse := growZeros s.impulse 1
        v_plus := growZeros s.v_plus 1
        d_multdof3_u := List.replicate rowsInG zeroVec3 },
      rowsInG - 1)

/-- Embedding of the multi-axis `ConstraintSet::AddLoopConstraint`
(Constraints.cc:278-337): fatal on a bound set; always creates a new
`LoopConstraint` (no merge check), with the two enforcement flags
applied to every axis, then writes the Baumgarte settings and grows
the arrays by the axis count. -/
def ConstraintSet.AddLoopConstraintMulti (s : ConstraintSet)
    (idPredecessor idSuccessor : ℕ)
    (XPredecessor XSuccessor : SpatialTransformQ)
    (constraintAxesInPredecessor : List SpatialVec)
    (enableStab : Bool) (stabParam : ℚ) (constraintName : Option String)
    (positionLevelConstraint velocityLevelConstraint : Bool) :
    Except RbdlError (ConstraintSet × ℕ) :=
  if s.bound then .error .contractViolation
  else
    let insertAtRowInG := s.size
    let k := constraintAxesInPredecessor.length
    let rowsInG := insertAtRowInG + k
    let nameStr := constraintName.getD ""
    .ok ({ s with
        constraints := s.constraints ++ [.loop
          ⟨idPredecessor, idSuccessor, XPredecessor, XSuccessor,
            constraintAxesInPredecessor.map (fun ax =>
              ⟨ax, positionLevelConstraint, velocityLevelConstraint⟩),
            enableStab, stabParam⟩]
        constraintType := s.constraintType
          ++ List.replicate k .ConstraintTypeLoop
        name := s.name ++ List.replicate k nameStr
        err := growZeros s.err k
        errd := growZeros s.errd k
        force := growZeros s.force k
        impulse := growZeros s.impulse k
        v_plus := growZeros s.v_plus k
        d_multdof3_u := List.replicate rowsInG zeroVec3 },
      rowsInG - 1)

/-- Embedding of `ConstraintSet::AddCustomConstraint`
(Constraints.cc:339-376): appends the externally supplied constraint
(represented by its row count and name) and grows the arrays.  NOTE:
the source performs no bound-state check in this function; the
`Except` result is for uniformity with the other registrations and is
always `ok`. -/
def ConstraintSet.AddCustomConstraint (s : ConstraintSet)
    (size : ℕ) (constraintName : Option String) :
    Except RbdlError (ConstraintSet × ℕ) :=
  let insertAtRowInG := s.size
  let rowsInG := insertAtRowInG + size
  let nameStr := constraintName.getD ""
  .ok ({ s with
      constraints := s.constraints ++ [.customC size]
      constraintType := s.constraintType
        ++ List.replicate size .ConstraintTypeCustom
      name := s.name ++ List.replicate size nameStr
      err := growZeros s.err size
      errd := growZeros s.errd size
      force := growZeros s.force size
      impulse := growZeros s.impulse size
      v_plus := growZeros s.v_plus size
      d_multdof3_u := List.replicate rowsInG zeroVec3 },
    rowsInG - 1)

/-- Embedding of `ConstraintSet::Bind` (Constraints.cc:380-468): fatal
on an already-bound set (`assert` and explicit `abort()`), otherwise
allocates and zeroes the assembled system and solver workspaces sized
by the dof count, body count and row count (the cache buffers are
resized without initialisation and stay unchanged except `vecNZeros`),
and marks the set bound. -/
def ConstraintSet.Bind (s : ConstraintSet) (nBodies : ℕ) :
    Except RbdlError ConstraintSet :=
  if s.bound then .error .contractViolation
  else .ok { s with
    bound := true
    H := fun _ _ => 0
    C := fun _ => 0
    gamma := fun _ => 0
    G := fun _ _ => 0
    A := fun _ _ => 0
    b := fun _ => 0
    x := fun _ => 0
    K := fun _ _ => 0
    a := fun _ => 0
    QDDot_t := fun _ => 0
    QDDot_0 := fun _ => 0
    f_t := List.replicate s.size zeroSVec
    point_accel_0 := List.replicate s.size zeroVec3
    f_ext_constraints := List.replicate nBodies zeroSVec
    d_pA := List.replicate nBodies zeroSVec
    d_a := List.replicate nBodies zeroSVec
    d_u := fun _ => 0
    d_multdof3_u := List.replicate nBodies zeroVec3
    cache := { s.cache with vecNZeros := fun _ => 0 } }

/-- Embedding of `ConstraintSet::clear` (Constraints.cc:471-558):
zeroes force, impulse, the assembled system `H, C, gamma, G`, the KKT
workspace `A, b, x`, the cache's vector and 3x3 buffers and the
translation parts of the cached spatial transforms (the
`cache.stX.E.Identity()` calls discard their result and leave the
rotation parts unchanged; the `mat6N` buffers are not touched), and
the Kokkevis workspace; `d_multdof3_u` and the per-row layout
(constraints, name, constraintType, err, errd, v_plus) are left
unchanged. -/
def ConstraintSet.clear (s : ConstraintSet) : ConstraintSet :=
  { s with
    force := s.force.map fun _ => 0
    impulse := s.impulse.map fun _ => 0
    H := fun _ _ => 0
    C := fun _ => 0
    gamma := fun _ => 0
    G := fun _ _ => 0
    A := fun _ _ => 0
    b := fun _ => 0
    x := fun _ => 0
    cache := { s.cache with
      vecNZeros := fun _ => 0
      vecNA := fun _ => 0
      vecNB := fun _ => 0
      vecNC := fun _ => 0
      vecND := fun _ => 0
      mat3NA := fun _ _ => 0
      mat3NB := fun _ _ => 0
      mat3NC := fun _ _ => 0
      mat3ND := fun _ _ => 0
      vec3A := zeroVec3
      vec3B := zeroVec3
      vec3C := zeroVec3
      vec3D := zeroVec3
      vec3E := zeroVec3
      vec3F := zeroVec3
      svecA := zeroSVec
      svecB := zeroSVec
      svecC := zeroSVec
      svecD := zeroSVec
      svecE := zeroSVec
      svecF := zeroSVec
      stA := { E := s.cache.stA.E, r := zeroVec3 }
      stB := { E := s.cache.stB.E, r := zeroVec3 }
      stC := { E := s.cache.stC.E, r := zeroVec3 }
      stD := { E := s.cache.stD.E, r := zeroVec3 }
      mat3A := fun _ _ => 0
      mat3B := fun _ _ => 0
      mat3C := fun _ _ => 0
      mat3D := fun _ _ => 0
      mat3E := fun _ _ => 0
      mat3F := fun _ _ => 0 }
    QDDot_t := fun _ => 0
    a := fun _ => 0
    K := fun _ _ => 0
    point_accel_0 := s.point_accel_0.map fun _ => zeroVec3
    f_t := s.f_t.map fun _ => zeroSVec
    QDDot_0 := fun _ => 0
    f_ext_constraints := s.f_ext_constraints.map fun _ => zeroSVec
    d_pA := s.d_pA.map fun _ => zeroSVec
    d_a := s.d_a.map fun _ => zeroSVec
    d_u := fun _ => 0 }

/-- The all-zero cache. -/
def emptyCache : ConstraintCache where
  vecNZeros := fun _ => 0
  vecNA := fun _ => 0
  vecNB := fun _ => 0
  vecNC := fun _ => 0
  vecND := fun _ => 0
  mat3NA := fun _ _ => 0
  mat3NB := fun _ _ => 0
  mat3NC := fun _ _ => 0
  mat3ND := fun _ _ => 0
  mat6NA := fun _ _ => 0
  mat6NB := fun _ _ => 0
  mat6NC := fun _ _ => 0
  mat6ND := fun _ _ => 0
  vec3A := zeroVec3
  vec3B := zeroVec3
  vec3C := zeroVec3
  vec3D := zeroVec3
  vec3E := zeroVec3
  vec3F := zeroVec3
  svecA := zeroSVec
  svecB := zeroSVec
  svecC := zeroSVec
  svecD := zeroSVec
  svecE := zeroSVec
  svecF := zeroSVec
  stA := { E := 1, r := zeroVec3 }
  stB := { E := 1, r := zeroVec3 }
  stC := { E := 1, r := zeroVec3 }
  stD := { E := 1, r := zeroVec3 }
  mat3A := fun _ _ => 0
  mat3B := fun _ _ => 0
  mat3C := fun _ _ => 0
  mat3D := fun _ _ => 0
  mat3E := fun _ _ => 0
  mat3F := fun _ _ => 0

/-- A freshly constructed, unbound registry with no constraints. -/
def ConstraintSet.empty : ConstraintSet where
  linear_solver := .LinearSolverColPivHouseholderQR
  constraints := []
  constraintType := []
  name := []
  err := []
  errd := []
  force := []
  impulse := []
  v_plus := []
  d_multdof3_u := []
  bound := false
  H := fun _ _ => 0
  C := fun _ => 0
  gamma := fun _ => 0
  G := fun _ _ => 0
  A := fun _ _ => 0
  b := fun _ => 0
  x := fun _ => 0
  K := fun _ _ => 0
  a := fun _ => 0
  QDDot_t := fun _ => 0
  QDDot_0 := fun _ => 0
  f_t := []
  point_accel_0 := []
  f_ext_constraints := []
  d_pA := []
  d_a := []
  d_u := fun _ => 0
  cache := emptyCache

/-- Total row count of a constraint list. -/
def rowSum (l : List Constr) : ℕ := (l.map Constr.rowCount).sum

theorem rowSum_nil : rowSum [] = 0 := rfl

theorem rowSum_cons (c : Constr) (l : List Constr) :
    rowSum (c :: l) = c.rowCount + rowSum l := by
  simp [rowSum]

theorem rowSum_append_single (l : List Constr) (c : Constr) :
    rowSum (l ++ [c]) = rowSum l + c.rowCount := by
  simp [rowSum]

theorem growZeros_length (l : List ℚ) (k : ℕ) :
    (growZeros l k).length = l.length + k := by
  simp [growZeros]

theorem rowSum_modifyLastContact_append1 (v : Vec3) :
    ∀ (l : List Constr) (d : ContactData), getLastContact l = some d →
      rowSum (modifyLastContact
        (fun dd => { dd with normals := dd.normals ++ [v] }) l)
        = rowSum l + 1 := by
  intro l
  induction l with
  | nil => intro d h; simp [getLastContact] at h
  | cons c rest ih =>
    intro d h
    rw [modifyLastContact]
    cases hrest : getLastContact rest with
    | some d2 =>
      simp only [Option.isSome_some, if_true, rowSum_cons]
      rw [ih d2 hrest]
      omega
    | none =>
      simp only [Option.isSome_none, Bool.false_eq_true, if_false]
      simp only [getLastContact, hrest] at h
      cases c with
      | contact dc =>
        simp [rowSum_cons, Constr.rowCount, updContact]
        omega
      | loop dl => simp at h
      | customC k => simp at h

theorem rowSum_modifyLastLoop_append1 (ax : LoopAxis) :
    ∀ (l : List Constr) (d : LoopData), getLastLoop l = some d →
      rowSum (modifyLastLoop
        (fun dd => { dd with axes := dd.axes ++ [ax] }) l)
        = rowSum l + 1 := by
  intro l
  induction l with
  | nil => intro d h; simp [getLastLoop] at h
  | cons c rest ih =>
    intro d h
    rw [modifyLastLoop]
    cases hrest : getLastLoop rest with
    | some d2 =>
      simp only [Option.isSome_some, if_true, rowSum_cons]
      rw [ih d2 hrest]
      omega
    | none =>
      simp only [Option.isSome_none, Bool.false_eq_true, if_false]
      simp only [getLastLoop, hrest] at h
      cases c with
      | loop dl =>
        simp [rowSum_cons, Constr.rowCount, updLoop]
        omega
      | contact dc => simp at h
      | customC k => simp at h

theorem rowSum_modifyLastLoop_keep (f : LoopData → LoopData)
    (hf : ∀ d, (f d).axes.length = d.axes.length) :
    ∀ l : List Constr, rowSum (modifyLastLoop f l) = rowSum l := by
  intro l
  induction l with
  | nil => rfl
  | cons c rest ih =>
    rw [modifyLastLoop]
    cases hrest : (getLastLoop rest).isSome with
    | true =>
      simp only [if_true, rowSum_cons, ih]
    | false =>
      simp only [Bool.false_eq_true, if_false]
      cases c with
      | loop d => simp [rowSum_cons, Constr.rowCount, updLoop, hf]
      | contact d => simp [rowSum_cons, updLoop]
      | customC k => simp [rowSum_cons, updLoop]

/-- Row-accounting invariant of the registry: the total row count of
the registered constraints equals the length of every parallel per-row
array. -/
def RowInvariant (s : ConstraintSet) : Prop :=
  rowSum s.constraints = s.err.length ∧
  rowSum s.constraints = s.errd.length ∧
  rowSum s.constraints = s.force.length ∧
  rowSum s.constraints = s.impulse.length ∧
  rowSum s.constraints = s.v_plus.length ∧
  rowSum s.constraints = s.name.length ∧
  rowSum s.constraints = s.constraintType.length

/-- One registration call with its arguments. -/
inductive RegOp : Type
  | contactMulti (bodyId : ℕ) (point : Vec3) (normals : List Vec3)
      (nm : Option String)
  | contactSingle (bodyId : ℕ) (point : Vec3) (normal : Vec3)
      (nm : Option String) (allowAppend : Bool) (tol : ℚ)
  | loopSingle (idPred idSucc : ℕ) (XPred XSucc : SpatialTransformQ)
      (axis : SpatialVec) (enableStab : Bool) (stabParam : ℚ)
      (nm : Option String) (allowAppend posLevel velLevel : Bool) (tol : ℚ)
  | loopMulti (idPred idSucc : ℕ) (XPred XSucc : SpatialTransformQ)
      (axes : List SpatialVec) (enableStab : Bool) (stabParam : ℚ)
      (nm : Option String) (posLevel velLevel : Bool)
  | customC (size : ℕ) (nm : Option String)

/-- Apply one registration call; a call rejected by the bound-state
contract leaves the registry unchanged (the process would have
terminated). -/
def applyReg (s : ConstraintSet) (op : RegOp) : ConstraintSet :=
  match op with
  | .contactMulti b p ns nm => (s.AddContactConstraintMulti b p ns nm).1
  | .contactSingle b p nrm nm aa tol =>
    match s.AddContactConstraint b p nrm nm aa tol with
    | .ok (s2, _) => s2
    | .error _ => s
  | .loopSingle ip is xp xs ax es sp nm aa pl vl tol =>
    match s.AddLoopConstraint ip is xp xs ax es sp nm aa pl vl tol with
    | .ok (s2, _) => s2
    | .error _ => s
  | .loopMulti ip is xp xs axs es sp nm pl vl =>
    match s.AddLoopConstraintMulti ip is xp xs axs es sp nm pl vl with
    | .ok (s2, _) => s2
    | .error _ => s
  | .customC sz nm =>
    match s.AddCustomConstraint sz nm with
    | .ok (s2, _) => s2
    | .error _ => s

theorem applyReg_preserves (s : ConstraintSet) (op : RegOp)
    (hinv : RowInvariant s) : RowInvariant (applyReg s op) := by
  obtain ⟨h1, h2, h3, h4, h5, h6, h7⟩ := hinv
  cases op with
  | contactMulti b p ns nm =>
    unfold applyReg ConstraintSet.AddContactConstraintMulti
    refine ⟨?_, ?_, ?_, ?_, ?_, ?_, ?_⟩ <;>
      (simp [rowSum_append_single, Constr.rowCount, growZeros_length]; omega)
  | contactSingle b p nrm nm aa tol =>
    unfold applyReg ConstraintSet.AddContactConstraint
    cases hb : s.bound with
    | true => exact ⟨h1, h2, h3, h4, h5, h6, h7⟩
    | false =>
      simp only [Bool.false_eq_true, if_false]
      cases hgc : getLastContact s.constraints with
      | some d =>
        simp only [hgc]
        cases haa : (aa && (d.bodyId == b &&
            decide (normSq (fun i => p i - d.bodyPoint i) < tol * tol))) with
        | true =>
          simp only [haa, if_true]
          have hms := rowSum_modifyLastContact_append1 nrm s.constraints d hgc
          refine ⟨?_, ?_, ?_, ?_, ?_, ?_, ?_⟩ <;>
            (simp [hms, growZeros_length]; omega)
        | false =>
          simp only [haa, Bool.false_eq_true, if_false]
          unfold ConstraintSet.AddContactConstraintMulti
          refine ⟨?_, ?_, ?_, ?_, ?_, ?_, ?_⟩ <;>
            (simp [rowSum_append_single, Constr.rowCount, growZeros_length]; omega)
      | none =>
        simp only [hgc, Bool.and_false]
        simp only [Bool.false_eq_true, if_false]
        unfold ConstraintSet.AddContactConstraintMulti
        refine ⟨?_, ?_, ?_, ?_, ?_, ?_, ?_⟩ <;>
          (simp [rowSum_append_single, Constr.rowCount, growZeros_length]; omega)
  | loopSingle ip is xp xs ax es sp nm aa pl vl tol =>
    unfold applyReg ConstraintSet.AddLoopConstraint
    cases hb : s.bound with
    | true => exact ⟨h1, h2, h3, h4, h5, h6, h7⟩
    | false =>
      simp only [Bool.false_eq_true, if_false]
      have hkeep := rowSum_modifyLastLoop_keep
        (fun d => { d with baumgarteEnabled := es, baumgarteTimeConstant := sp })
        (fun d => rfl)
      cases hgl : getLastLoop s.constraints with
      | some d =>
        simp only [hgl]
        cases hcond : (aa && (d.idPredecessor == ip && d.idSuccessor == is &&
            framesClose d.XPredecessor xp tol &&
            framesClose d.XSuccessor xs tol)) with
        | true =>
          simp only [hcond, if_true]
          have hms := rowSum_modifyLastLoop_append1
            ⟨ax, pl, vl⟩ s.constraints d hgl
          refine ⟨?_, ?_, ?_, ?_, ?_, ?_, ?_⟩ <;>
            (simp [hkeep, hms, growZeros_length]; omega)
        | false =>
          simp only [hcond, Bool.false_eq_true, if_false]
          refine ⟨?_, ?_, ?_, ?_, ?_, ?_, ?_⟩ <;>
            (simp [hkeep, rowSum_append_single, Constr.rowCount,
              growZeros_length]; omega)
      | none =>
        simp only [hgl, Bool.and_false]
        simp only [Bool.false_eq_true, if_false]
        refine ⟨?_, ?_, ?_, ?_, ?_, ?_, ?_⟩ <;>
          (simp [hkeep, rowSum_append_single, Constr.rowCount,
            growZeros_length]; omega)
  | loopMulti ip is xp xs axs es sp nm pl vl =>
    unfold applyReg ConstraintSet.AddLoopConstraintMulti
    cases hb : s.bound with
    | true => exact ⟨h1, h2, h3, h4, h5, h6, h7⟩
    | false =>
      simp only [Bool.false_eq_true, if_false]
      refine ⟨?_, ?_, ?_, ?_, ?_, ?_, ?_⟩ <;>
        (simp [rowSum_append_single, Constr.rowCount, growZeros_length]; omega)
  | customC sz nm =>
    unfold applyReg ConstraintSet.AddCustomConstraint
    refine ⟨?_, ?_, ?_, ?_, ?_, ?_, ?_⟩ <;>
      (simp [rowSum_append_single, Constr.rowCount, growZeros_length]; omega)

/-- C3: after every registration call (any `AddContactConstraint`,
`AddLoopConstraint`, or `AddCustomConstraint` overload, merging or
not), the sum of the row counts of all registered constraints equals
the length of each parallel per-row array (err, errd, force, impulse,
v_plus, name, constraintType): the invariant is preserved by every
call, holds for the fresh registry, and therefore holds after any
sequence of registrations. -/
theorem rowAccounting_invariant :
    (∀ (s : ConstraintSet) (op : RegOp),
      RowInvariant s → RowInvariant (applyReg s op)) ∧
    RowInvariant ConstraintSet.empty ∧
    ∀ ops : List RegOp, RowInvariant (ops.foldl applyReg ConstraintSet.empty) := by
  refine ⟨applyReg_preserves, ?_, ?_⟩
  · exact ⟨rfl, rfl, rfl, rfl, rfl, rfl, rfl⟩
  · intro ops
    have hgen : ∀ (ops : List RegOp) (s : ConstraintSet), RowInvariant s →
        RowInvariant (ops.foldl applyReg s) := by
      intro ops
      induction ops with
      | nil => intro s hs; exact hs
      | cons op rest ih =>
        intro s hs
        exact ih _ (applyReg_preserves s op hs)
    exact hgen ops _ ⟨rfl, rfl, rfl, rfl, rfl, rfl, rfl⟩

/-- C3 witness: the invariant holds after a concrete registration on
the fresh registry, by the preservation statement. -/
theorem rowAccounting_invariant_witness :
    RowInvariant (applyReg ConstraintSet.empty (.customC 2 none)) :=
  rowAccounting_invariant.1 ConstraintSet.empty (.customC 2 none)
    rowAccounting_invariant.2.1

theorem getLastContact_append_contact (d : ContactData) :
    ∀ l : List Constr, getLastContact (l ++ [.contact d]) = some d := by
  intro l
  induction l with
  | nil => rfl
  | cons c rest ih =>
    show getLastContact (c :: (rest ++ [.contact d])) = some d
    simp only [getLastContact, ih]

theorem modifyLastContact_append_contact (f : ContactData → ContactData)
    (d : ContactData) :
    ∀ l : List Constr,
      modifyLastContact f (l ++ [.contact d]) = l ++ [.contact (f d)] := by
  intro l
  induction l with
  | nil => rfl
  | cons c rest ih =>
    show modifyLastContact f (c :: (rest ++ [.contact d]))
      = c :: (rest ++ [.contact (f d)])
    rw [modifyLastContact, getLastContact_append_contact, ih]
    rfl

/-- C4: with merging allowed and the immediately preceding registered
constraint a contact constraint on the same body whose point is within
the merge tolerance of the new one, the single-normal
`AddContactConstraint` appends the new normal to that existing object
(no new constraint object, one extra stacked row in every per-row
array, prior rows preserved in order); with the merge flag disabled, a
separate new single-normal constraint object is always appended. -/
theorem contactMerge_spec (s : ConstraintSet) (l : List Constr)
    (d : ContactData) (body_id : ℕ) (body_point world_normal : Vec3)
    (nm : Option String) (tol : ℚ)
    (hbound : s.bound = false)
    (hlast : s.constraints = l ++ [.contact d])
    (hbody : d.bodyId = body_id)
    (hclose : normSq (fun i => body_point i - d.bodyPoint i) < tol * tol) :
    (∃ s1 r1,
      s.AddContactConstraint body_id body_point world_normal nm true tol
        = .ok (s1, r1) ∧
      s1.constraints
        = l ++ [.contact { d with normals := d.normals ++ [world_normal] }] ∧
      s1.constraintType = s.constraintType ++ [.ConstraintTypeContact] ∧
      s1.name = s.name ++ [nm.getD ""] ∧
      s1.err = s.err ++ [0] ∧
      s1.errd = s.errd ++ [0] ∧
      s1.force = s.force ++ [0] ∧
      s1.impulse = s.impulse ++ [0] ∧
      s1.v_plus = s.v_plus ++ [0]) ∧
    (∃ s2 r2,
      s.AddContactConstraint body_id body_point world_normal nm false tol
        = .ok (s2, r2) ∧
      s2.constraints
        = s.constraints ++ [.contact ⟨body_id, body_point, [world_normal]⟩]) := by
  have hgc : getLastContact s.constraints = some d := by
    rw [hlast]; exact getLastContact_append_contact d l
  constructor
  · unfold ConstraintSet.AddContactConstraint
    rw [hbound]
    simp only [Bool.false_eq_true, if_false, hgc]
    have hcond : (true && (d.bodyId == body_id &&
        decide (normSq (fun i => body_point i - d.bodyPoint i) < tol * tol)))
        = true := by
      simp [hbody, hclose]
    rw [hcond]
    simp only [if_true]
    refine ⟨_, _, rfl, ?_, rfl, rfl, ?_, ?_, ?_, ?_, ?_⟩
    · show modifyLastContact
        (fun dd => { dd with normals := dd.normals ++ [world_normal] })
        s.constraints = _
      rw [hlast, modifyLastContact_append_contact]
    all_goals (first | rfl | simp [growZeros])
  · unfold ConstraintSet.AddContactConstraint
    rw [hbound]
    simp only [Bool.false_eq_true, if_false, hgc, Bool.false_and]
    exact ⟨_, _, rfl, rfl⟩

/-- C4 witness registry: an unbound set holding one single-normal
contact constraint on body 5 at the origin. -/
def mergeWitnessSet : ConstraintSet :=
  { ConstraintSet.empty with
    constraints := [.contact ⟨5, zeroVec3, [fun _ => 1]⟩]
    constraintType := [.ConstraintTypeContact]
    name := [""]
    err := [0]
    errd := [0]
    force := [0]
    impulse := [0]
    v_plus := [0]
    d_multdof3_u := [zeroVec3] }

/-- C4 witness: merging a second normal at the same body and point. -/
theorem contactMerge_spec_witness :
    (∃ s1 r1,
      mergeWitnessSet.AddContactConstraint 5 zeroVec3 (fun _ => 2) none true 1
        = .ok (s1, r1) ∧
      s1.constraints = [] ++ [.contact
        { (⟨5, zeroVec3, [fun _ => 1]⟩ : ContactData) with
          normals := [fun _ => 1] ++ [fun _ => 2] }] ∧
      s1.constraintType
        = mergeWitnessSet.constraintType ++ [.ConstraintTypeContact] ∧
      s1.name = mergeWitnessSet.name ++ [(none : Option String).getD ""] ∧
      s1.err = mergeWitnessSet.err ++ [0] ∧
      s1.errd = mergeWitnessSet.errd ++ [0] ∧
      s1.force = mergeWitnessSet.force ++ [0] ∧
      s1.impulse = mergeWitnessSet.impulse ++ [0] ∧
      s1.v_plus = mergeWitnessSet.v_plus ++ [0]) ∧
    (∃ s2 r2,
      mergeWitnessSet.AddContactConstraint 5 zeroVec3 (fun _ => 2) none false 1
        = .ok (s2, r2) ∧
      s2.constraints = mergeWitnessSet.constraints
        ++ [.contact ⟨5, zeroVec3, [fun _ => 2]⟩]) :=
  contactMerge_spec mergeWitnessSet [] ⟨5, zeroVec3, [fun _ => 1]⟩
    5 zeroVec3 (fun _ => 2) none 1
    rfl rfl rfl
    (by norm_num [normSq, zeroVec3])

/-- C6 (amended): `clear` zeroes the per-row force and impulse entries
(preserving their lengths), the assembled `H, C, gamma, G`, the KKT
workspace `A, b, x`, the Kokkevis workspace
(`K, a, QDDot_t, QDDot_0, f_t, point_accel_0, f_ext_constraints,
d_pA, d_a, d_u`) and the cache's vector/3x3 buffers, while leaving
every registered constraint and the row layout (name, constraintType,
err, errd, v_plus, bound flag, array lengths) unchanged — but the
rotation parts of the cached spatial transforms `stA`-`stD` and the
`mat6N` cache buffers are NOT reset (the `E.Identity()` calls discard
their result), and `d_multdof3_u` is not touched; calling `clear`
twice produces the same state as calling it once. -/
theorem clear_spec (s : ConstraintSet) :
    (s.clear.force = s.force.map fun _ => 0) ∧
    (s.clear.impulse = s.impulse.map fun _ => 0) ∧
    s.clear.H = (fun _ _ => 0) ∧
    s.clear.C = (fun _ => 0) ∧
    s.clear.gamma = (fun _ => 0) ∧
    s.clear.G = (fun _ _ => 0) ∧
    s.clear.A = (fun _ _ => 0) ∧
    s.clear.b = (fun _ => 0) ∧
    s.clear.x = (fun _ => 0) ∧
    s.clear.K = (fun _ _ => 0) ∧
    s.clear.a = (fun _ => 0) ∧
    s.clear.QDDot_t = (fun _ => 0) ∧
    s.clear.QDDot_0 = (fun _ => 0) ∧
    (s.clear.f_t = s.f_t.map fun _ => zeroSVec) ∧
    (s.clear.point_accel_0 = s.point_accel_0.map fun _ => zeroVec3) ∧
    (s.clear.f_ext_constraints = s.f_ext_constraints.map fun _ => zeroSVec) ∧
    (s.clear.d_pA = s.d_pA.map fun _ => zeroSVec) ∧
    (s.clear.d_a = s.d_a.map fun _ => zeroSVec) ∧
    s.clear.d_u = (fun _ => 0) ∧
    s.clear.cache.vecNZeros = (fun _ => 0) ∧
    s.clear.cache.vecNA = (fun _ => 0) ∧
    s.clear.cache.vecNB = (fun _ => 0) ∧
    s.clear.cache.vecNC = (fun _ => 0) ∧
    s.clear.cache.vecND = (fun _ => 0) ∧
    s.clear.cache.mat3NA = (fun _ _ => 0) ∧
    s.clear.cache.mat3NB = (fun _ _ => 0) ∧
    s.clear.cache.mat3NC = (fun _ _ => 0) ∧
    s.clear.cache.mat3ND = (fun _ _ => 0) ∧
    s.clear.cache.vec3A = zeroVec3 ∧
    s.clear.cache.vec3B = zeroVec3 ∧
    s.clear.cache.vec3C = zeroVec3 ∧
    s.clear.cache.vec3D = zeroVec3 ∧
    s.clear.cache.vec3E = zeroVec3 ∧
    s.clear.cache.vec3F = zeroVec3 ∧
    s.clear.cache.svecA = zeroSVec ∧
    s.clear.cache.svecB = zeroSVec ∧
    s.clear.cache.svecC = zeroSVec ∧
    s.clear.cache.svecD = zeroSVec ∧
    s.clear.cache.svecE = zeroSVec ∧
    s.clear.cache.svecF = zeroSVec ∧
    s.clear.cache.mat3A = (fun _ _ => 0) ∧
    s.clear.cache.mat3B = (fun _ _ => 0) ∧
    s.clear.cache.mat3C = (fun _ _ => 0) ∧
    s.clear.cache.mat3D = (fun _ _ => 0) ∧
    s.clear.cache.mat3E = (fun _ _ => 0) ∧
    s.clear.cache.mat3F = (fun _ _ => 0) ∧
    s.clear.cache.stA.r = zeroVec3 ∧
    s.clear.cache.stB.r = zeroVec3 ∧
    s.clear.cache.stC.r = zeroVec3 ∧
    s.clear.cache.stD.r = zeroVec3 ∧
    -- not reset:
    s.clear.cache.stA.E = s.cache.stA.E ∧
    s.clear.cache.stB.E = s.cache.stB.E ∧
    s.clear.cache.stC.E = s.cache.stC.E ∧
    s.clear.cache.stD.E = s.cache.stD.E ∧
    s.clear.cache.mat6NA = s.cache.mat6NA ∧
    s.clear.cache.mat6NB = s.cache.mat6NB ∧
    s.clear.cache.mat6NC = s.cache.mat6NC ∧
    s.clear.cache.mat6ND = s.cache.mat6ND ∧
    s.clear.d_multdof3_u = s.d_multdof3_u ∧
    -- layout unchanged:
    s.clear.constraints = s.constraints ∧
    s.clear.constraintType = s.constraintType ∧
    s.clear.name = s.name ∧
    s.clear.err = s.err ∧
    s.clear.errd = s.errd ∧
    s.clear.v_plus = s.v_plus ∧
    s.clear.bound = s.bound ∧
    s.clear.linear_solver = s.linear_solver ∧
    s.clear.force.length = s.force.length ∧
    s.clear.impulse.length = s.impulse.length ∧
    -- idempotence:
    s.clear.clear = s.clear := by
  refine ⟨rfl, rfl, rfl, rfl, rfl, rfl, rfl, rfl, rfl, rfl, rfl, rfl, rfl,
    rfl, rfl, rfl, rfl, rfl, rfl, rfl, rfl, rfl, rfl, rfl, rfl, rfl, rfl,
    rfl, rfl, rfl, rfl, rfl, rfl, rfl, rfl, rfl, rfl, rfl, rfl, rfl, rfl,
    rfl, rfl, rfl, rfl, rfl, rfl, rfl, rfl, rfl, rfl, rfl, rfl, rfl, rfl,
    rfl, rfl, rfl, rfl, rfl, rfl, rfl, rfl, rfl, rfl, rfl, rfl,
    ?_, ?_, ?_⟩
  · simp [ConstraintSet.clear]
  · simp [ConstraintSet.clear]
  · unfold ConstraintSet.clear
    simp [List.map_map, Function.comp]

/-- C6 counterexample state: a registry whose cached spatial transform
`stA` has a nonzero (and non-identity) rotation block. -/
def clearCounterexampleSet : ConstraintSet :=
  { ConstraintSet.empty with
    cache := { emptyCache with
      stA := { E := fun _ _ => 5, r := fun _ => 3 } } }

/-- C6 counterexample: `clear` does not reset the cache to zero — the
rotation block of the cached spatial transform `stA` keeps its prior
value (the source's `cache.stA.E.Identity()` discards its result), so
the claim that `clear` zeroes all cache state is false. -/
theorem clear_cache_not_zeroed :
    clearCounterexampleSet.clear.cache.stA.E 0 0 = 5 ∧ (5 : ℚ) ≠ 0 := by
  constructor
  · rfl
  · norm_num

/-- C7 (amended): the single-normal `AddContactConstraint` and both
`AddLoopConstraint` overloads require the registry to be unbound and
fail fatally on a bound registry, as does `Bind` itself; but
`AddCustomConstraint` and the multi-normal `AddContactConstraint`
perform no bound-state check and complete normally on a bound
registry. -/
theorem registration_bound_contract (s : ConstraintSet)
    (hbound : s.bound = true) :
    (∀ b p nrm nm aa tol,
      s.AddContactConstraint b p nrm nm aa tol
        = .error .contractViolation) ∧
    (∀ ip isc xp xs ax es sp nm aa pl vl tol,
      s.AddLoopConstraint ip isc xp xs ax es sp nm aa pl vl tol
        = .error .contractViolation) ∧
    (∀ ip isc xp xs axs es sp nm pl vl,
      s.AddLoopConstraintMulti ip isc xp xs axs es sp nm pl vl
        = .error .contractViolation) ∧
    (∀ nBodies, s.Bind nBodies = .error .contractViolation) ∧
    (∀ sz nm, ∃ s2 r, s.AddCustomConstraint sz nm = .ok (s2, r)) ∧
    (∀ b p ns nm,
      (s.AddContactConstraintMulti b p ns nm).1.constraints
        = s.constraints ++ [.contact ⟨b, p, ns⟩]) := by
  refine ⟨?_, ?_, ?_, ?_, ?_, ?_⟩
  · intro b p nrm nm aa tol
    unfold ConstraintSet.AddContactConstraint
    rw [hbound]
    rfl
  · intro ip isc xp xs ax es sp nm aa pl vl tol
    unfold ConstraintSet.AddLoopConstraint
    rw [hbound]
    rfl
  · intro ip isc xp xs axs es sp nm pl vl
    unfold ConstraintSet.AddLoopConstraintMulti
    rw [hbound]
    rfl
  · intro nBodies
    unfold ConstraintSet.Bind
    rw [hbound]
    rfl
  · intro sz nm
    exact ⟨_, _, rfl⟩
  · intro b p ns nm
    rfl

/-- C7 counterexample registry: a bound registry. -/
def boundSet : ConstraintSet := { ConstraintSet.empty with bound := true }

/-- C7 counterexample: `AddCustomConstraint` invoked on a bound
registry does NOT fail — it completes and registers the constraint, so
the claim that every registration operation fails fatally on a bound
registry is false. -/
theorem addCustomConstraint_no_bound_check :
    boundSet.bound = true ∧
    ∃ s2 r, boundSet.AddCustomConstraint 2 none = .ok (s2, r) ∧
      s2.constraints = [.customC 2] :=
  ⟨rfl, _, _, rfl, rfl⟩

/-- C7 witness: the fatal checks on a concrete bound registry. -/
theorem registration_bound_contract_witness :
    (∀ b p nrm nm aa tol,
      boundSet.AddContactConstraint b p nrm nm aa tol
        = .error .contractViolation) ∧
    (∀ ip isc xp xs ax es sp nm aa pl vl tol,
      boundSet.AddLoopConstraint ip isc xp xs ax es sp nm aa pl vl tol
        = .error .contractViolation) ∧
    (∀ ip isc xp xs axs es sp nm pl vl,
      boundSet.AddLoopConstraintMulti ip isc xp xs axs es sp nm pl vl
        = .error .contractViolation) ∧
    (∀ nBodies, boundSet.Bind nBodies = .error .contractViolation) ∧
    (∀ sz nm, ∃ s2 r, boundSet.AddCustomConstraint sz nm = .ok (s2, r)) ∧
    (∀ b p ns nm,
      (boundSet.AddContactConstraintMulti b p ns nm).1.constraints
        = boundSet.constraints ++ [.contact ⟨b, p, ns⟩]) :=
  registration_bound_contract boundSet rfl

/-!  Constraint-consistent assembly: `CalcAssemblyQ`
(Constraints.cc:829-931). -/

/-- Abstract model data consumed by `CalcAssemblyQ`: the
position-error evaluation and constraint Jacobian (the per-constraint
contract of §4.2 reached through `CalcConstraintsPositionError` /
`CalcConstraintsJacobian`, which are loops over external
per-constraint methods), and the per-joint application of a
correction step to the configuration (additive for standard joints,
quaternion-update-and-renormalise for spherical joints; the embedding
keeps the update as a parameter, so every theorem below holds for
every joint structure). -/
structure AssemblyModel (nq m : ℕ) where
  posErr : (Fin nq → ℚ) → (Fin m → ℚ)
  jac : (Fin nq → ℚ) → Matrix (Fin m) (Fin nq) ℚ
  applyStep : (Fin nq → ℚ) → (Fin nq → ℚ) → (Fin nq → ℚ)

/-- Squared norm (the source's `e.norm() < tol` is embedded as
`normSqV e < tol * tol`). -/
def normSqV {k : ℕ} (v : Fin k → ℚ) : ℚ := ∑ i, v i * v i

/-- The weighted augmented Gauss-Newton matrix
`[[diag(weights), Jᵀ],[J, 0]]` assembled in the iteration loop
(Constraints.cc:864-885; the top-left weight block is set once before
the loop, the Jacobian blocks are refreshed per iteration). -/
def gnMatrix {nq m : ℕ} (M : AssemblyModel nq m) (weights : Fin nq → ℚ)
    (q : Fin nq → ℚ) : Matrix (Fin nq ⊕ Fin m) (Fin nq ⊕ Fin m) ℚ :=
  Matrix.fromBlocks (Matrix.diagonal weights) (M.jac q).transpose (M.jac q) 0

/-- The right-hand side `[0; -e]` of the Gauss-Newton system
(Constraints.cc:859, 886). -/
def gnRhs {nq m : ℕ} (M : AssemblyModel nq m) (q : Fin nq → ℚ) :
    Fin nq ⊕ Fin m → ℚ :=
  Sum.elim 0 (-(M.posErr q))

/-- The correction step `d` extracted from the solved system
(Constraints.cc:892), with the solve idealised as exact. -/
def gnStepD {nq m : ℕ} (M : AssemblyModel nq m) (weights q : Fin nq → ℚ) :
    Fin nq → ℚ :=
  fun i => linSolve (gnMatrix M weights q) (gnRhs M q) (Sum.inl i)

/-- The configuration after one Gauss-Newton iteration. -/
def gnStepQ {nq m : ℕ} (M : AssemblyModel nq m) (weights q : Fin nq → ℚ) :
    Fin nq → ℚ :=
  M.applyStep q (gnStepD M weights q)

/-- The loop's termination test after one iteration from `q`: both the
refreshed error norm and the step norm are below tolerance
(Constraints.cc:922). -/
def gnConverged {nq m : ℕ} (M : AssemblyModel nq m)
    (weights : Fin nq → ℚ) (tol : ℚ) (q : Fin nq → ℚ) : Prop :=
  normSqV (M.posErr (gnStepQ M weights q)) < tol * tol ∧
    normSqV (gnStepD M weights q) < tol * tol

/-- The Gauss-Newton iteration loop of `CalcAssemblyQ`
(Constraints.cc:879-926): in each of the up to `max_iter` rounds,
assemble and solve the weighted augmented system through
`SolveLinearSystem` (fatal on an unrecognised selector), apply the
step, recompute the error, and return success when the error norm and
step norm both fall below tolerance; when the iteration budget is
exhausted the loop ends with `false` and the last iterate. -/
def calcAssemblyLoop {nq m : ℕ} (M : AssemblyModel nq m)
    (weights : Fin nq → ℚ) (tol : ℚ) (ls : LinearSolver) :
    ℕ → (Fin nq → ℚ) → Except RbdlError (Bool × (Fin nq → ℚ))
  | 0, q => .ok (false, q)
  | it + 1, q => do
    let x ← SolveLinearSystem (gnMatrix M weights q) (gnRhs M q) ls
    let d : Fin nq → ℚ := fun i => x (Sum.inl i)
    let q2 := M.applyStep q d
    if normSqV (M.posErr q2) < tol * tol ∧ normSqV d < tol * tol then
      .ok (true, q2)
    else
      calcAssemblyLoop M weights tol ls it q2

/-- Embedding of `CalcAssemblyQ` (Constraints.cc:829-931).  The
Q/QInit/weights size checks are enforced by the index types.  If the
initial position-constraint error is already below tolerance the
initial guess is returned at once with `true`; otherwise the
Gauss-Newton loop runs.  The result carries the success flag returned
by the source and the configuration written into `Q` (the best
available approximation also on failure). -/
def CalcAssemblyQ {nq m : ℕ} (M : AssemblyModel nq m)
    (QInit weights : Fin nq → ℚ) (tolerance : ℚ) (max_iter : ℕ)
    (ls : LinearSolver) : Except RbdlError (Bool × (Fin nq → ℚ)) :=
  if normSqV (M.posErr QInit) < tolerance * tolerance then .ok (true, QInit)
  else calcAssemblyLoop M weights tolerance ls max_iter QInit

theorem calcAssemblyLoop_budget {nq m : ℕ} (M : AssemblyModel nq m)
    (weights : Fin nq → ℚ) (tol : ℚ) {ls : LinearSolver}
    (hls : ls.isValid = true) :
    ∀ (N : ℕ) (q : Fin nq → ℚ),
      (∀ k, k < N → ¬ gnConverged M weights tol ((gnStepQ M weights)^[k] q)) →
      calcAssemblyLoop M weights tol ls N q
        = .ok (false, (gnStepQ M weights)^[N] q) := by
  intro N
  induction N with
  | zero => intro q h; rfl
  | succ n ih =>
    intro q h
    have hnc := h 0 (Nat.succ_pos n)
    simp only [Function.iterate_zero, id_eq] at hnc
    rw [calcAssemblyLoop]
    unfold SolveLinearSystem
    rw [dispatchSolve_valid hls]
    show (if normSqV (M.posErr (M.applyStep q (fun i =>
          linSolve (gnMatrix M weights q) (gnRhs M q) (Sum.inl i)))) < tol * tol ∧
        normSqV (fun i => linSolve (gnMatrix M weights q) (gnRhs M q) (Sum.inl i))
          < tol * tol then
        Except.ok (true, M.applyStep q (fun i =>
          linSolve (gnMatrix M weights q) (gnRhs M q) (Sum.inl i)))
      else calcAssemblyLoop M weights tol ls n (M.applyStep q (fun i =>
        linSolve (gnMatrix M weights q) (gnRhs M q) (Sum.inl i))))
      = .ok (false, (gnStepQ M weights)^[n + 1] q)
    have hshift : ∀ k, k < n →
        ¬ gnConverged M weights tol ((gnStepQ M weights)^[k] (gnStepQ M weights q)) := by
      intro k hk
      rw [← Function.iterate_succ_apply]
      exact h (k + 1) (Nat.succ_lt_succ hk)
    split
    · rename_i hcv
      exact absurd hcv hnc
    · rw [Function.iterate_succ_apply]
      exact ih (gnStepQ M weights q) hshift

/-- C9: `CalcAssemblyQ` returns `true` immediately with `Q = QInit`
when the initial error is already below tolerance (zero Gauss-Newton
iterations, for every iteration budget including zero); and when no
iteration within the budget satisfies the convergence test, it
returns `false` (a recoverable indicator, not a fatal error) together
with the best available approximation, the `max_iter`-th
Gauss-Newton iterate. -/
theorem calcAssemblyQ_spec {nq m : ℕ} (M : AssemblyModel nq m)
    (QInit weights : Fin nq → ℚ) (tol : ℚ) (max_iter : ℕ)
    (ls : LinearSolver) (hls : ls.isValid = true) :
    (normSqV (M.posErr QInit) < tol * tol →
      CalcAssemblyQ M QInit weights tol max_iter ls = .ok (true, QInit)) ∧
    (¬ normSqV (M.posErr QInit) < tol * tol →
      (∀ k, k < max_iter →
        ¬ gnConverged M weights tol ((gnStepQ M weights)^[k] QInit)) →
      CalcAssemblyQ M QInit weights tol max_iter ls
        = .ok (false, (gnStepQ M weights)^[max_iter] QInit)) := by
  constructor
  · intro h
    unfold CalcAssemblyQ
    rw [if_pos h]
  · intro h hdiv
    unfold CalcAssemblyQ
    rw [if_neg h]
    exact calcAssemblyLoop_budget M weights tol hls max_iter QInit hdiv

/-- C9 witness model (a): the position error vanishes identically. -/
def assemblySatisfiedModel : AssemblyModel 1 1 where
  posErr := fun _ => fun _ => 0
  jac := fun _ => 0
  applyStep := fun q d => q + d

/-- C9 witness model (b): a constant unit position error that no step
can reduce (the Jacobian is zero, so the singular augmented system
yields a zero step in the exact-solve embedding). -/
def assemblyStuckModel : AssemblyModel 1 1 where
  posErr := fun _ => fun _ => 1
  jac := fun _ => 0
  applyStep := fun q d => q + d

theorem assemblyStuck_notConverged (q : Fin 1 → ℚ) :
    ¬ gnConverged assemblyStuckModel ![1] 1 q := by
  intro hcv
  have h1 := hcv.1
  simp [gnConverged, normSqV, assemblyStuckModel, Fin.sum_univ_succ] at h1

/-- C9 witness: the early return on an already-satisfying guess, and
the failure return with the iterated configuration when the budget of
two iterations is exhausted without convergence. -/
theorem calcAssemblyQ_spec_witness :
    CalcAssemblyQ assemblySatisfiedModel ![3] ![1] 1 5 .LinearSolverHouseholderQR
      = .ok (true, ![3]) ∧
    CalcAssemblyQ assemblyStuckModel ![3] ![1] 1 2 .LinearSolverHouseholderQR
      = .ok (false, (gnStepQ assemblyStuckModel ![1])^[2] ![3]) := by
  constructor
  · exact (calcAssemblyQ_spec assemblySatisfiedModel ![3] ![1] 1 5
      .LinearSolverHouseholderQR rfl).1
      (by norm_num [normSqV, assemblySatisfiedModel, Fin.sum_univ_succ])
  · exact (calcAssemblyQ_spec assemblyStuckModel ![3] ![1] 1 2
      .LinearSolverHouseholderQR rfl).2
      (by norm_num [normSqV, assemblyStuckModel, Fin.sum_univ_succ])
      (fun k _ => assemblyStuck_notConverged _)

end RigidBodyDynamics
